import Mathlib

/-!
Shallow embedding of the Clean-Master order-reconciliation pipeline
(`06_CleanMaster..js`, with helpers from `01_Utils.js` and `03_BannedList.js`).

Modelling conventions:
* Spreadsheet cell values are modelled by `Value` (string, finite number,
  boolean, valid-or-invalid date carried as epoch milliseconds, or blank).
  JavaScript `null`/`undefined`/missing-column reads all behave as `vNull`,
  which is faithful because the pipeline only ever observes them through
  `s_`, `parseMoney_`, `parseQty_`, `truthy_` and `parseAnyDate_`, all of
  which treat `null` and `undefined` alike.
* JavaScript numbers are modelled as rationals; every number the pipeline
  manipulates is finite (the parsers return 0 for non-finite input).
* `String(n)` for a number is modelled by the rational's `toString`; the
  pipeline only relies on that rendering being nonempty for nonzero input,
  and on `String(1) = "1"` for the `truthy_` check, both of which hold.
* The regex class `\s` is modelled as the ASCII whitespace characters.
-/

attribute [local semireducible] Rat.mul Rat.add Rat.inv Rat.sub

namespace CleanMaster

/-- ASCII whitespace, modelling the regex class `\s` and `String.trim`. -/
def isWsChar (c : Char) : Bool :=
  c = ' ' || c = '\t' || c = '\n' || c = '\r' || c = '\x0b' || c = '\x0c'

/-- JavaScript `String.prototype.trim` on a character list. -/
def jsTrimList (cs : List Char) : List Char :=
  ((cs.dropWhile isWsChar).reverse.dropWhile isWsChar).reverse

/-- JavaScript `String.prototype.trim`. -/
def jsTrim (s : String) : String := ⟨jsTrimList s.data⟩

/-- JavaScript `String.prototype.toLowerCase` (ASCII case fold). -/
def jsToLower (s : String) : String := ⟨s.data.map Char.toLower⟩

/-- Separator class of the regexes `[,\s;]+` used for email splitting. -/
def isSepChar (c : Char) : Bool := c = ',' || c = ';' || isWsChar c

/-- First token of `s.split(/[,\s;]+/)`: the longest separator-free prefix
(empty when the string starts with a separator, as in JavaScript). -/
def firstSepToken (cs : List Char) : List Char := cs.takeWhile (fun c => !isSepChar c)

/-- Whether the first list is a leading segment of the second. -/
def leadsWith : List Char → List Char → Bool
  | [], _ => true
  | _ :: _, [] => false
  | a :: as, b :: bs => a = b && leadsWith as bs

/-- JavaScript `String.prototype.includes` on character lists. -/
def containsSeg (needle hay : List Char) : Bool :=
  (List.range (hay.length + 1)).any (fun i => leadsWith needle (hay.drop i))

/-- JavaScript `hay.includes(needle)` for strings. -/
def jsIncludes (hay needle : String) : Bool := containsSeg needle.data hay.data

/-- JavaScript `s.endsWith(t)`. -/
def jsEndsWith (s t : String) : Bool := leadsWith t.data.reverse s.data.reverse

/-- JavaScript `s.lastIndexOf("@")`: index of the last `@`, if any. -/
def lastIndexOfAt (cs : List Char) : Option ℕ :=
  match cs with
  | [] => none
  | c :: rest =>
    match lastIndexOfAt rest with
    | some i => some (i + 1)
    | none => if c = '@' then some 0 else none

/-- JavaScript `x || d` for finite numbers: `0` is falsy. -/
def jsOr (x d : ℚ) : ℚ := if x = 0 then d else x

/-- JavaScript `a || b` for strings: the empty string is falsy. -/
def jsOrStr (a b : String) : String := if a = "" then b else a

/-- Value of a decimal digit list, most significant first. -/
def digitsVal (cs : List Char) : ℕ :=
  cs.foldl (fun acc c => 10 * acc + (c.toNat - '0'.toNat)) 0

/-- JavaScript `parseFloat` restricted to the sign/digit/dot strings that the
money and quantity cleaners produce (`none` models `NaN`). -/
def parseFloatQ (cs0 : List Char) : Option ℚ :=
  let cs1 := cs0.dropWhile isWsChar
  let sign : ℚ := if cs1.headD ' ' = '-' then -1 else 1
  let cs2 := if cs1.headD ' ' = '-' || cs1.headD ' ' = '+' then cs1.tail else cs1
  let intPart := cs2.takeWhile Char.isDigit
  let rest := cs2.dropWhile Char.isDigit
  let fracPart :=
    match rest with
    | '.' :: t => t.takeWhile Char.isDigit
    | _ => []
  if intPart = [] && fracPart = [] then none
  else some (sign * ((digitsVal intPart : ℚ) +
    (digitsVal fracPart : ℚ) / ((10 : ℚ) ^ fracPart.length)))

/-- Character class kept by the cleaners' `replace(/[^\d.\-]/g, "")`. -/
def isMoneyChar (c : Char) : Bool := c.isDigit || c = '.' || c = '-'

/-- Spreadsheet cell values as observed by the pipeline.  `vDate` carries a
JavaScript time value in epoch milliseconds; `vNull` stands for `null`,
`undefined` and reads of absent columns alike. -/
inductive Value where
  | vNull : Value
  | vStr : String → Value
  | vNum : ℚ → Value
  | vBool : Bool → Value
  | vDate : ℤ → Value
deriving DecidableEq

/-- JavaScript `String(v)` for a non-null value.  Number and date renderings
are abstracted (the pipeline relies only on their being nonempty, and on
`String(1) = "1"`, which `Rat.toString` satisfies). -/
def jsStringOf (v : Value) : String :=
  match v with
  | .vNull => ""
  | .vStr s => s
  | .vNum q => toString q
  | .vBool b => if b then "true" else "false"
  | .vDate ms => "Date(" ++ toString ms ++ ")"

/-- Whether a value is falsy in JavaScript (`null`, `""`, `0`, `false`). -/
def jsFalsy (v : Value) : Bool :=
  match v with
  | .vNull => true
  | .vStr s => s = ""
  | .vNum q => q = 0
  | .vBool b => !b
  | .vDate _ => false

/-- Helper `s_` from `01_Utils.js`: null/undefined become `""`, anything else
is stringified and trimmed. -/
def s_ (v : Value) : String :=
  match v with
  | .vNull => ""
  | _ => jsTrim (jsStringOf v)

/-- Helper `parseMoney_` from `01_Utils.js`. -/
def parseMoney_ (v : Value) : ℚ :=
  match v with
  | .vNull => 0
  | .vNum q => q
  | _ =>
    let s := jsTrim (jsStringOf v)
    if s = "" then 0
    else
      let negParen := s.data.headD ' ' = '(' && s.data.getLastD ' ' = ')' &&
        decide (2 ≤ s.data.length)
      let cleaned := s.data.filter isMoneyChar
      match parseFloatQ cleaned with
      | none => 0
      | some n => if negParen then -|n| else n

/-- Helper `parseQty_` from `01_Utils.js`. -/
def parseQty_ (v : Value) : ℚ :=
  match v with
  | .vNull => 0
  | .vNum q => q
  | _ =>
    let s := jsTrim (jsStringOf v)
    if s = "" then 0
    else
      let cleaned := s.data.filter isMoneyChar
      match parseFloatQ cleaned with
      | none => 0
      | some n => n

/-- Helper `truthy_` from `01_Utils.js`. -/
def truthy_ (v : Value) : Bool :=
  if v = .vBool true then true
  else
    let s := jsToLower (jsTrim (if jsFalsy v then "" else jsStringOf v))
    s = "true" || s = "yes" || s = "y" || s = "1"

/-- Helper `normEmail_` from `01_Utils.js`. -/
def normEmail_ (emailRaw : String) : String := jsTrim (jsToLower (jsTrim emailRaw))

/-- Strips a leading `mailto:` as `replace(/^mailto:/, "")`. -/
def stripMailto (cs : List Char) : List Char :=
  if leadsWith "mailto:".data cs then cs.drop 7 else cs

/-- Helper `normalizeEmailForCompare_` from `01_Utils.js`: case-fold, trim,
strip `mailto:`, keep the first separator-free token, strip a `+tag` local
suffix, and strip local-part dots for the gmail family. -/
def normalizeEmailForCompare_ (v : String) : String :=
  let email := (jsToLower (jsTrim v)).data
  if email = [] then ""
  else
    let email := stripMailto email
    let email := jsTrimList (firstSepToken email)
    match lastIndexOfAt email with
    | none => ⟨email⟩
    | some at_ =>
      let lcl := email.take at_
      let domain : List Char := email.drop (at_ + 1)
      let lcl := lcl.takeWhile (fun c => c ≠ '+')
      let lcl := if domain = "gmail.com".data || domain = "googlemail.com".data then
        lcl.filter (fun c => c ≠ '.') else lcl
      ⟨lcl ++ '@' :: domain⟩

/-- The banned list as loaded by `03_BannedList.js`: exact (pre-normalized)
emails and banned domains. -/
structure BannedList where
  exact : List String
  domains : List String
deriving DecidableEq

/-- One entry of the `Banned_Emails` tab (already lower-cased, trimmed and
split on separators), classified as in the loader's `forEach` body. -/
def addBannedEntry (bl : BannedList) (entry0 : String) : BannedList :=
  let entry := if leadsWith "*@".data entry0.data then ⟨entry0.data.drop 1⟩ else entry0
  if leadsWith "@".data entry.data then
    { bl with domains := bl.domains ++ [⟨entry.data.drop 1⟩] }
  else if entry.data.contains '@' then
    { bl with exact := bl.exact ++ [normalizeEmailForCompare_ entry] }
  else
    { bl with domains := bl.domains ++ [entry] }

/-- Single pass splitting a character list on separator runs, dropping empty
tokens; `cur` accumulates the current token in reverse. -/
def splitSepTokensAux (cur : List Char) : List Char → List (List Char)
  | [] => if cur = [] then [] else [cur.reverse]
  | c :: cs =>
    if isSepChar c then
      (if cur = [] then [] else [cur.reverse]) ++ splitSepTokensAux [] cs
    else splitSepTokensAux (c :: cur) cs

/-- Splits one cell of the banned tab on `[,\s;]+`, keeping nonempty entries
(the loader filters out the empty ones with `filter(Boolean)`). -/
def splitSepTokens (cs : List Char) : List (List Char) := splitSepTokensAux [] cs

/-- `loadBannedList_` from `03_BannedList.js`, reading the given column cells
of the `Banned_Emails` tab; the company domain is always appended. -/
def loadBannedFromCells (cells : List String) : BannedList :=
  let entries := (cells.map (fun c => jsToLower (jsTrim c))).filter (fun c => c ≠ "")
  let bl := entries.foldl
    (fun bl cell =>
      ((splitSepTokens cell.data).map (fun t : List Char => (⟨t⟩ : String))).foldl
        addBannedEntry bl)
    { exact := [], domains := [] }
  { bl with domains := bl.domains ++ ["dirtlegal.com"] }

/-- `isBannedEmail_` from `03_BannedList.js`. -/
def isBannedEmail_ (emailRaw : String) (banned : BannedList) : Bool :=
  let email := normalizeEmailForCompare_ emailRaw
  if email = "" then false
  else if email ∈ banned.exact then true
  else
    match lastIndexOfAt email.data with
    | none => false
    | some at_ =>
      let domain : String := ⟨email.data.drop (at_ + 1)⟩
      banned.domains.any (fun d => domain = d || jsEndsWith domain ("." ++ d))

/-! JavaScript `Date` time values.  A `Date` is valid iff its time value lies
within `±8.64e15` milliseconds of the epoch; `getTime()` of an invalid date is
`NaN`, which the pipeline always guards with `isNaN`. -/

/-- Bound on valid JavaScript time values. -/
def dateMsLimit : ℤ := 8640000000000000

/-- Whether `ms` is a valid JavaScript time value. -/
def dateMsValidB (ms : ℤ) : Bool := decide (-dateMsLimit ≤ ms ∧ ms ≤ dateMsLimit)

/-- Days-from-civil conversion (proleptic Gregorian, day 0 = 1970-01-01). -/
def daysFromCivil (y m d : ℤ) : ℤ :=
  let y' := if m ≤ 2 then y - 1 else y
  let era := Int.fdiv y' 400
  let yoe := y' - era * 400
  let mp := if 2 < m then m - 3 else m + 9
  let doy := Int.fdiv (153 * mp + 2) 5 + d - 1
  let doe := yoe * 365 + Int.fdiv yoe 4 - Int.fdiv yoe 100 + doy
  era * 146097 + doe - 719468

/-- Calendar year of a day number (day 0 = 1970-01-01). -/
def yearOfDay (z0 : ℤ) : ℤ :=
  let z := z0 + 719468
  let era := Int.fdiv z 146097
  let doe := z - era * 146097
  let yoe := Int.fdiv (doe - Int.fdiv doe 1460 + Int.fdiv doe 36524 - Int.fdiv doe 146096) 365
  let y := yoe + era * 400
  let doy := doe - (365 * yoe + Int.fdiv yoe 4 - Int.fdiv yoe 100)
  let mp := Int.fdiv (5 * doy + 2) 153
  let m := if mp < 10 then mp + 3 else mp - 9
  if m ≤ 2 then y + 1 else y

/-- JavaScript `Date.prototype.getFullYear` of a time value (the host's
script timezone is modelled as UTC). -/
def jsGetFullYear (ms : ℤ) : ℤ := yearOfDay (Int.fdiv ms 86400000)

/-- Reads exactly `n` decimal digits, returning their value and the rest. -/
def readNDigits (acc : ℕ) : ℕ → List Char → Option (ℕ × List Char)
  | 0, cs => some (acc, cs)
  | _ + 1, [] => none
  | n + 1, c :: cs =>
    if c.isDigit then readNDigits (10 * acc + (c.toNat - 48)) n cs else none

/-- Consumes an expected single character. -/
def expectChar (c : Char) : List Char → Option (List Char)
  | [] => none
  | c' :: cs => if c' = c then some cs else none

/-- Gregorian leap year. -/
def isLeapYear (y : ℤ) : Bool := (y % 4 = 0 && y % 100 ≠ 0) || y % 400 = 0

/-- Days in a month. -/
def daysInMonth (y m : ℤ) : ℤ :=
  if m = 2 then (if isLeapYear y then 29 else 28)
  else if m = 4 || m = 6 || m = 9 || m = 11 then 30
  else 31

/-- Time-of-day tail of an ISO string: empty, or `Thh:mm` / `Thh:mm:ss`.
Returns milliseconds within the day. -/
def parseIsoTail : List Char → Option ℕ
  | [] => some 0
  | 'T' :: rest =>
    (readNDigits 0 2 rest).bind fun (h, r1) =>
    (expectChar ':' r1).bind fun r2 =>
    (readNDigits 0 2 r2).bind fun (mi, r3) =>
    match r3 with
    | [] => if h ≤ 23 && mi ≤ 59 then some (h * 3600000 + mi * 60000) else none
    | ':' :: r4 =>
      (readNDigits 0 2 r4).bind fun (sec, r5) =>
      if r5 = [] && h ≤ 23 && mi ≤ 59 && sec ≤ 59 then
        some (h * 3600000 + mi * 60000 + sec * 1000)
      else none
    | _ => none
  | _ => none

/-- Models `new Date(string).getTime()` for the ISO `yyyy-mm-dd[Thh:mm[:ss]]`
forms the pipeline documents (interpreted as UTC); every other string is an
invalid date (`none`).  Out-of-range time values are clipped to invalid as in
ECMAScript. -/
def jsDateParseNative (s : String) : Option ℤ :=
  (readNDigits 0 4 s.data).bind fun (y, r1) =>
  (expectChar '-' r1).bind fun r2 =>
  (readNDigits 0 2 r2).bind fun (mo, r3) =>
  (expectChar '-' r3).bind fun r4 =>
  (readNDigits 0 2 r4).bind fun (da, r5) =>
  (parseIsoTail r5).bind fun msOfDay =>
  if 1 ≤ mo && mo ≤ 12 && 1 ≤ da && (da : ℤ) ≤ daysInMonth (y : ℤ) (mo : ℤ) then
    if dateMsValidB (daysFromCivil (y : ℤ) (mo : ℤ) (da : ℤ) * 86400000 + (msOfDay : ℤ)) then
      some (daysFromCivil (y : ℤ) (mo : ℤ) (da : ℤ) * 86400000 + (msOfDay : ℤ))
    else none
  else none

/-- Test of the regex `/^\d{4}-\d{2}-\d{2}\s+\d{2}:\d{2}/`. -/
def isoSpaceTimePattern (cs : List Char) : Bool :=
  ((readNDigits 0 4 cs).bind fun (_, r1) =>
   (expectChar '-' r1).bind fun r2 =>
   (readNDigits 0 2 r2).bind fun (_, r3) =>
   (expectChar '-' r3).bind fun r4 =>
   (readNDigits 0 2 r4).bind fun (_, r5) =>
   if r5.takeWhile isWsChar = [] then none
   else
     let r6 := r5.dropWhile isWsChar
     (readNDigits 0 2 r6).bind fun (_, r7) =>
     (expectChar ':' r7).bind fun r8 =>
     (readNDigits 0 2 r8).map fun _ => ()).isSome

/-- JavaScript `s.replace(" ", "T")`: replaces the first space only. -/
def replaceFirstSpace : List Char → List Char
  | [] => []
  | c :: cs => if c = ' ' then 'T' :: cs else c :: replaceFirstSpace cs

/-- Core of the string branch of `parseAnyDate_`: try the native parse, then
retry the `"yyyy-mm-dd hh:mm"` form with the first space turned into a `T`. -/
def parseAnyDateChars (cs : List Char) : Option ℤ :=
  if cs = [] then none
  else
    match jsDateParseNative ⟨cs⟩ with
    | some d => some d
    | none =>
      if isoSpaceTimePattern cs then jsDateParseNative ⟨replaceFirstSpace cs⟩
      else none

/-- String branch of `parseAnyDate_`: trim, strip leading apostrophes
(`replace(/^'+/, "")`), then `parseAnyDateChars`. -/
def parseAnyDateStr (v : Value) : Option ℤ :=
  parseAnyDateChars ((jsTrimList (jsStringOf v).data).dropWhile (fun c => c = Char.ofNat 39))

/-- Robust date coercion `parseAnyDate_` from `06_CleanMaster..js`: `null`,
`undefined` and `""` give `null`; a valid `Date` is returned as is (an invalid
one falls through to the string branch, whose rendering never parses); a
finite number is read as a spreadsheet serial (days since 1899-12-30) and
validated; strings go through `parseAnyDateStr`. -/
def parseAnyDate_ (v : Value) : Option ℤ :=
  if v = .vNull || v = .vStr "" then none
  else
    match v with
    | .vDate ms => if dateMsValidB ms then some ms else parseAnyDateStr v
    | .vNum q =>
      let ms : ℤ := ⌊(q - 25569) * 86400 * 1000 + 1 / 2⌋
      if dateMsValidB ms then some ms else none
    | v => parseAnyDateStr v

/-! The Squarespace pricing repair (`fixSquarespaceLinePricing_`). -/

/-- One buffered Squarespace order line, as pushed by `processSquarespace_`:
`{ platform, orderId, quantity, unitPrice, lineRevenue, orderNet }`. -/
structure SqLine where
  platform : String
  orderId : String
  quantity : ℚ
  unitPrice : ℚ
  lineRevenue : ℚ
  orderNet : ℚ
deriving DecidableEq, Inhabited

/-- `fixSquarespaceLinePricing_` from `06_CleanMaster..js`.  The source
mutates the row objects in place; the embedding returns the updated list. -/
def fixSquarespaceLinePricing_ (rows : List SqLine) : List SqLine :=
  match rows with
  | [] => rows
  | r0 :: _ =>
    if jsTrim r0.platform ≠ "Squarespace" then rows
    else
      let hasAnyLineRevenue :=
        rows.any fun r => decide (0 < jsOr r.lineRevenue 0) || decide (0 < jsOr r.unitPrice 0)
      let orderNet := jsOr r0.orderNet 0
      if orderNet ≤ 0 then rows
      else if hasAnyLineRevenue then
        rows.map fun r =>
          let qty := max 1 (jsOr r.quantity 1)
          let up := jsOr r.unitPrice 0
          let lr := jsOr r.lineRevenue 0
          { r with
            lineRevenue := if lr ≤ 0 ∧ 0 < up then up * qty else r.lineRevenue
            unitPrice := if up ≤ 0 ∧ 0 < lr then lr / qty else r.unitPrice }
      else
        let qtySum0 := (rows.map fun r => max 1 (jsOr r.quantity 1)).sum
        let qtySum := if qtySum0 ≤ 0 then (rows.length : ℚ) else qtySum0
        rows.map fun r =>
          let qty := max 1 (jsOr r.quantity 1)
          let share := orderNet * (qty / qtySum)
          { r with lineRevenue := share, unitPrice := share / qty }

/-! Banned products and the Squarespace 2026 renewal exclusion. -/

/-- The `BANNED_PRODUCT_KEYWORDS` constant. -/
def BANNED_PRODUCT_KEYWORDS : List String :=
  ["Roxo", "Rough Country", "Rigid", "Rugged Ridge", "ScanGauge", "Shorty Stunt",
   "Smittybilt", "Spoke", "Squadron", "Honda Talon", "Stainless Steel",
   "Standard Side", "Stealth", "Sticker Bomb", "SUZUKI DRZ400SM",
   "Subaru Crosstrek", "Tactical", "Speedometer", "Trail Tech", "Trailmax",
   "Skid Plate", "Tusk", "Universal", "Signal", "UTV Conversion", "UTV Plug",
   "Legal Conversion", "Vehicle Sales Tax", "Vintage Air", "Winch", "Wheelie",
   "Windshield", "WR250 R/X", "OEM", "ZETA"]

/-- `isBannedProduct_`: case-insensitive substring match against the keyword
list. -/
def isBannedProduct_ (productName : String) : Bool :=
  if productName = "" then false
  else
    let productLower := jsToLower productName
    BANNED_PRODUCT_KEYWORDS.any fun kw => jsIncludes productLower (jsToLower kw)

/-- Collapses every whitespace run to a single space
(`replace(/\s+/g, " ")`); `inWs` records whether the previous character was
part of a run. -/
def squeezeWsAux : Bool → List Char → List Char
  | _, [] => []
  | inWs, c :: cs =>
    if isWsChar c then (if inWs then [] else [' ']) ++ squeezeWsAux true cs
    else c :: squeezeWsAux false cs

/-- `normalizeProductText_` from `processSquarespace_`: lower-case, replace
non-alphanumerics by spaces, collapse whitespace, trim. -/
def normalizeProductText_ (productName : String) : String :=
  let lowered := (jsToLower productName).data
  let mapped := lowered.map fun c =>
    if ('a' ≤ c && c ≤ 'z') || ('0' ≤ c && c ≤ '9') || isWsChar c then c else ' '
  ⟨jsTrimList (squeezeWsAux false mapped)⟩

/-- `shouldExcludeSquarespaceOrder_`: a 2026-dated order line whose normalized
product text contains (montana OR mt) AND llc AND renew*.  The `orderDate`
argument is the already-parsed date (`parseAnyDate_` output), so it is either
absent or a valid time value. -/
def shouldExcludeSquarespaceOrder_ (orderDate : Option ℤ) (productName : String) : Bool :=
  match orderDate with
  | none => false
  | some ms =>
    if jsGetFullYear ms ≠ 2026 then false
    else
      let pn := normalizeProductText_ productName
      let groups : List (List String) := [["montana", "mt"], ["llc"], ["renew"]]
      groups.all fun g => g.any fun kw => jsIncludes pn kw

/-! The canonical output table (`All_Orders_Clean`), one row per order line. -/

/-- One canonical output row (the twenty `CLEAN_HEADERS` columns).
`orderDate = none` models the empty cell written for a null date. -/
structure CanonLine where
  platform : String
  orderId : String
  orderNumber : String
  orderDate : Option ℤ
  customerEmailRaw : String
  customerEmailNorm : String
  customerName : String
  productName : String
  sku : String
  quantity : ℚ
  unitPrice : ℚ
  lineRevenue : ℚ
  orderDiscountTotal : ℚ
  orderRefundTotal : ℚ
  orderNetRevenue : ℚ
  currency : String
  financialStatus : String
  fulfillmentStatus : String
  tags : String
  sourceSheet : String
deriving DecidableEq, Inhabited

/-- Whether a cell is blank for the `row.every(v => v === "" || v === null)`
skip (a numeric `0` is not blank). -/
def isCellBlank (v : Value) : Bool := v = .vNull || v = .vStr ""

/-! The Shopify phase (`processShopify_`).  All referenced columns are
modelled as present; a read of an absent optional column behaves exactly like
a `vNull` cell under `s_`, `parseMoney_`, `parseQty_` and `truthy_`, so this
loses no generality for the row-level computations. -/

/-- One raw `Shopify Orders` row, restricted to the columns the builder
reads. -/
structure ShopRow where
  orderId : Value
  orderNumber : Value
  processedLocal : Value
  processedAt : Value
  createdLocal : Value
  createdAt : Value
  updatedAt : Value
  financial : Value
  fulfill : Value
  currency : Value
  totalDiscounts : Value
  totalPrice : Value
  currentTotalPrice : Value
  totalRefunds : Value
  testOrder : Value
  email : Value
  firstName : Value
  lastName : Value
  lineName : Value
  lineQty : Value
  linePrice : Value
  lineSku : Value
  tags : Value
deriving DecidableEq

/-- The blank-row skip for a Shopify row. -/
def rowIsBlankShop (r : ShopRow) : Bool :=
  isCellBlank r.orderId && isCellBlank r.orderNumber && isCellBlank r.processedLocal &&
  isCellBlank r.processedAt && isCellBlank r.createdLocal && isCellBlank r.createdAt &&
  isCellBlank r.updatedAt && isCellBlank r.financial && isCellBlank r.fulfill &&
  isCellBlank r.currency && isCellBlank r.totalDiscounts && isCellBlank r.totalPrice &&
  isCellBlank r.currentTotalPrice && isCellBlank r.totalRefunds && isCellBlank r.testOrder &&
  isCellBlank r.email && isCellBlank r.firstName && isCellBlank r.lastName &&
  isCellBlank r.lineName && isCellBlank r.lineQty && isCellBlank r.linePrice &&
  isCellBlank r.lineSku && isCellBlank r.tags

/-- Whether a cell is absent (the column is missing, so the read yields
`undefined`/`vNull`) or empty (a string that trims to `""`).  For such cells
`s_` gives `""` and the money parsers give 0. -/
def cellAbsentOrEmptyB (v : Value) : Bool :=
  match v with
  | .vNull => true
  | .vStr s => jsTrim s = ""
  | _ => false

/-- The order-level totals `(discountTotal, refundTotal, netRevenue)` computed
for a Shopify row: gross and discount are absolute-valued; net revenue uses
`Current Total Price` when that cell is nonzero or nonempty and otherwise
falls back to the gross total; the refund total uses `Total Refunds` when
nonempty and otherwise `max(0, gross - net)`. -/
def shopOrderTotals (r : ShopRow) : ℚ × ℚ × ℚ :=
  let grossTotal := |parseMoney_ r.totalPrice|
  let discountTotal := |parseMoney_ r.totalDiscounts|
  let currentTotal := parseMoney_ r.currentTotalPrice
  let netRevenue :=
    if currentTotal ≠ 0 ∨ s_ r.currentTotalPrice ≠ "" then |currentTotal| else grossTotal
  let refundTotal :=
    if s_ r.totalRefunds ≠ "" then |parseMoney_ r.totalRefunds|
    else max 0 (grossTotal - netRevenue)
  (discountTotal, refundTotal, netRevenue)

/-- Scan state of the Shopify phase: the `lastOrderKey` sentinel and the
running excluded counter. -/
structure ShopSt where
  lastOrderKey : String
  excluded : ℕ
deriving DecidableEq

/-- The per-row body of the `processShopify_` scan loop: either the row is
skipped (blank, test order, banned email, empty or banned product) or one
canonical line is produced, with the order totals written only when the
row's order key differs from the `lastOrderKey` sentinel. -/
def processShopifyRow (banned : BannedList) (st : ShopSt) (r : ShopRow) :
    ShopSt × Option CanonLine :=
  if rowIsBlankShop r then (st, none)
  else if truthy_ r.testOrder then ({ st with excluded := st.excluded + 1 }, none)
  else
    let emailRaw := s_ r.email
    if emailRaw ≠ "" ∧ isBannedEmail_ emailRaw banned then
      ({ st with excluded := st.excluded + 1 }, none)
    else
      let orderId := s_ r.orderId
      let orderNumber := s_ r.orderNumber
      let orderDate :=
        ((((parseAnyDate_ r.processedLocal).orElse fun _ => parseAnyDate_ r.processedAt).orElse
          fun _ => parseAnyDate_ r.createdLocal).orElse
          fun _ => parseAnyDate_ r.createdAt).orElse fun _ => parseAnyDate_ r.updatedAt
      let firstN := s_ r.firstName
      let lastN := s_ r.lastName
      let customerName := if firstN ≠ "" ∨ lastN ≠ "" then jsTrim (firstN ++ " " ++ lastN) else ""
      let productName := s_ r.lineName
      if productName = "" then (st, none)
      else if isBannedProduct_ productName then ({ st with excluded := st.excluded + 1 }, none)
      else
        let sku := s_ r.lineSku
        let qty := parseQty_ r.lineQty
        let unitPrice := parseMoney_ r.linePrice
        let lineRevenue := jsOr qty 0 * jsOr unitPrice 0
        let currency := s_ r.currency
        let financialStatus := s_ r.financial
        let fulfillmentStatus := s_ r.fulfill
        let tags := s_ r.tags
        let orderKey := "Shopify||" ++ orderId
        let t := shopOrderTotals r
        if orderKey = st.lastOrderKey then
          (st, some
            { platform := "Shopify", orderId, orderNumber, orderDate,
              customerEmailRaw := emailRaw, customerEmailNorm := normEmail_ emailRaw,
              customerName, productName, sku, quantity := qty, unitPrice, lineRevenue,
              orderDiscountTotal := 0, orderRefundTotal := 0, orderNetRevenue := 0,
              currency, financialStatus, fulfillmentStatus, tags,
              sourceSheet := "Shopify Orders" })
        else
          ({ st with lastOrderKey := orderKey }, some
            { platform := "Shopify", orderId, orderNumber, orderDate,
              customerEmailRaw := emailRaw, customerEmailNorm := normEmail_ emailRaw,
              customerName, productName, sku, quantity := qty, unitPrice, lineRevenue,
              orderDiscountTotal := t.1, orderRefundTotal := t.2.1, orderNetRevenue := t.2.2,
              currency, financialStatus, fulfillmentStatus, tags,
              sourceSheet := "Shopify Orders" })

/-- The canonical lines contributed by one row (none or one). -/
def optToList (o : Option CanonLine) : List CanonLine :=
  match o with
  | none => []
  | some l => [l]

/-- The Shopify scan over a list of raw rows.  The chunked write buffer is
flushed contiguously and `lastOrderKey` is persisted in the build state, so
the emitted lines do not depend on the chunk or pause boundaries; the scan is
therefore modelled as one pass. -/
def processShopifyRows (banned : BannedList) (st : ShopSt) :
    List ShopRow → ShopSt × List CanonLine
  | [] => (st, [])
  | r :: rs =>
    let p := processShopifyRow banned st r
    let q := processShopifyRows banned p.1 rs
    (q.1, optToList p.2 ++ q.2)

/-! The Squarespace phase (`processSquarespace_`). -/

/-- The per-order metadata captured from the first line of a Squarespace
order group, with the parallel product-name and SKU arrays. -/
structure SqMeta where
  orderId : String
  orderNumber : String
  orderDate : Option ℤ
  emailRaw : String
  customerName : String
  discountTotal : ℚ
  refundTotal : ℚ
  netRevenue : ℚ
  currency : String
  productNames : List String
  skus : List String
deriving DecidableEq

/-- The in-progress order group (`curOrderMeta` together with
`curOrderLines`; `curOrderId` is `meta.orderId`). -/
structure SqGroup where
  meta : SqMeta
  lines : List SqLine
deriving DecidableEq

/-- Scan state of the Squarespace phase: the excluded-order set, the
in-progress group and the excluded counter. -/
structure SqSt where
  excludedOrderIds : List String
  cur : Option SqGroup
  excluded : ℕ
deriving DecidableEq

/-- One raw `Squarespace Orders` row, restricted to the read columns. -/
structure SqRow where
  orderId : Value
  orderNumber : Value
  createdOn : Value
  modifiedOn : Value
  testMode : Value
  email : Value
  billFirst : Value
  billLast : Value
  product : Value
  sku : Value
  qty : Value
  unitPriceValue : Value
  subtotalCurrency : Value
  discountValue : Value
  refundedValue : Value
  grandTotalValue : Value
  grandTotalCurrency : Value
deriving DecidableEq

/-- The blank-row skip for a Squarespace row. -/
def rowIsBlankSq (r : SqRow) : Bool :=
  isCellBlank r.orderId && isCellBlank r.orderNumber && isCellBlank r.createdOn &&
  isCellBlank r.modifiedOn && isCellBlank r.testMode && isCellBlank r.email &&
  isCellBlank r.billFirst && isCellBlank r.billLast && isCellBlank r.product &&
  isCellBlank r.sku && isCellBlank r.qty && isCellBlank r.unitPriceValue &&
  isCellBlank r.subtotalCurrency && isCellBlank r.discountValue &&
  isCellBlank r.refundedValue && isCellBlank r.grandTotalValue &&
  isCellBlank r.grandTotalCurrency

/-- The date resolved for a Squarespace row (`Created On` then
`Modified On`). -/
def sqRowDate (r : SqRow) : Option ℤ :=
  (parseAnyDate_ r.createdOn).orElse fun _ => parseAnyDate_ r.modifiedOn

/-- The canonical line written for position `j` of a flushed group (totals
only on `j = 0`). -/
def sqCanonLine (meta : SqMeta) (j : ℕ) (lo : SqLine) : CanonLine :=
  { platform := "Squarespace", orderId := meta.orderId, orderNumber := meta.orderNumber,
    orderDate := meta.orderDate, customerEmailRaw := meta.emailRaw,
    customerEmailNorm := normEmail_ meta.emailRaw, customerName := meta.customerName,
    productName := meta.productNames.getD j "", sku := meta.skus.getD j "",
    quantity := lo.quantity, unitPrice := lo.unitPrice, lineRevenue := lo.lineRevenue,
    orderDiscountTotal := if j = 0 then meta.discountTotal else 0,
    orderRefundTotal := if j = 0 then meta.refundTotal else 0,
    orderNetRevenue := if j = 0 then meta.netRevenue else 0,
    currency := meta.currency, financialStatus := "", fulfillmentStatus := "",
    tags := "", sourceSheet := "Squarespace Orders" }

/-- `flushCurrentOrder_`: drop the group (counting its lines as excluded)
when its order was flagged, otherwise repair its pricing and emit one
canonical line per buffered line, totals only on the first. -/
def flushCurrentOrder_ (st : SqSt) : SqSt × List CanonLine :=
  match st.cur with
  | none => (st, [])
  | some g =>
    if g.meta.orderId = "" ∨ g.lines = [] then (st, [])
    else if g.meta.orderId ∈ st.excludedOrderIds then
      ({ st with excluded := st.excluded + g.lines.length, cur := none }, [])
    else
      let fixed := fixSquarespaceLinePricing_ g.lines
      ({ st with cur := none }, fixed.enum.map fun jl => sqCanonLine g.meta jl.1 jl.2)

/-- Appends a surviving line (and its product name and SKU) to the current
group. -/
def appendSqLine (st : SqSt) (productName sku : String) (l : SqLine) : SqSt :=
  match st.cur with
  | none => st
  | some g =>
    { st with cur := some (SqGroup.mk
        { g.meta with
          productNames := g.meta.productNames ++ [productName],
          skus := g.meta.skus ++ [sku] }
        (g.lines ++ [l])) }

/-- The per-row body of the `processSquarespace_` scan loop, returning the
updated state and any canonical lines emitted by a flush of the previous
group. -/
def processSqRow (banned : BannedList) (st : SqSt) (r : SqRow) : SqSt × List CanonLine :=
  if rowIsBlankSq r then (st, [])
  else if truthy_ r.testMode then ({ st with excluded := st.excluded + 1 }, [])
  else
    let emailRaw := s_ r.email
    if emailRaw ≠ "" ∧ isBannedEmail_ emailRaw banned then
      ({ st with excluded := st.excluded + 1 }, [])
    else
      let orderId := s_ r.orderId
      let orderNumber := s_ r.orderNumber
      if orderId = "" then (st, [])
      else if orderId ∈ st.excludedOrderIds then ({ st with excluded := st.excluded + 1 }, [])
      else
        let orderDate := sqRowDate r
        let firstN := s_ r.billFirst
        let lastN := s_ r.billLast
        let customerName :=
          if firstN ≠ "" ∨ lastN ≠ "" then jsTrim (firstN ++ " " ++ lastN) else ""
        let productName := s_ r.product
        if productName = "" then (st, [])
        else if isBannedProduct_ productName then
          ({ st with excluded := st.excluded + 1 }, [])
        else if shouldExcludeSquarespaceOrder_ orderDate productName then
          let st1 := { st with excludedOrderIds := st.excludedOrderIds ++ [orderId] }
          let st2 :=
            match st1.cur with
            | some g =>
              if g.meta.orderId = orderId then
                { st1 with excluded := st1.excluded + g.lines.length, cur := none }
              else st1
            | none => st1
          ({ st2 with excluded := st2.excluded + 1 }, [])
        else
          let sku := s_ r.sku
          let qty := parseQty_ r.qty
          let unitPrice := if s_ r.unitPriceValue ≠ "" then parseMoney_ r.unitPriceValue else 0
          let lineRevenue := jsOr qty 0 * jsOr unitPrice 0
          let discountTotal := |parseMoney_ r.discountValue|
          let refundTotal := |parseMoney_ r.refundedValue|
          let grandTotal := |parseMoney_ r.grandTotalValue|
          let netRevenue := max 0 (grandTotal - refundTotal)
          let currency := jsOrStr (s_ r.subtotalCurrency) (s_ r.grandTotalCurrency)
          let flushed :=
            match st.cur with
            | some g => if g.meta.orderId ≠ orderId then flushCurrentOrder_ st else (st, [])
            | none => (st, [])
          let stG :=
            match flushed.1.cur with
            | none =>
              { flushed.1 with cur := some (SqGroup.mk
                  { orderId, orderNumber, orderDate, emailRaw, customerName,
                    discountTotal, refundTotal, netRevenue, currency,
                    productNames := [], skus := [] }
                  []) }
            | some _ => flushed.1
          (appendSqLine stG productName sku
            { platform := "Squarespace", orderId, quantity := qty, unitPrice,
              lineRevenue, orderNet := netRevenue },
           flushed.2)

/-- The Squarespace scan body over a list of raw rows from a given state. -/
def processSqRowsAux (banned : BannedList) : SqSt → List SqRow → SqSt × List CanonLine
  | st, [] => (st, [])
  | st, r :: rs =>
    let p := processSqRow banned st r
    let q := processSqRowsAux banned p.1 rs
    (q.1, p.2 ++ q.2)

/-- The initial Squarespace scan state of one invocation (the excluded-order
set and the group buffer are locals of `processSquarespace_`). -/
def initSqSt : SqSt := { excludedOrderIds := [], cur := none, excluded := 0 }

/-- The Squarespace phase over the raw rows of one uninterrupted invocation
in which fewer than 2000 lines are buffered, so that the periodic
buffer-flush and the pause path never fire: scan all rows, then flush the
final group. -/
def processSquarespaceRows (banned : BannedList) (rows : List SqRow) : SqSt × List CanonLine :=
  let p := processSqRowsAux banned initSqSt rows
  let q := flushCurrentOrder_ p.1
  (q.1, p.2 ++ q.2)

/-! The top-level build (`buildAllOrdersClean`). -/

/-- The persisted `CLEAN_MASTER_BUILD_STATE_V2` record. -/
structure BuildState where
  started : Bool
  phase : String
  rowCursor : ℕ
  outRow : ℕ
  excluded : ℕ
  written : ℕ
  lastOrderKey : String
deriving DecidableEq

/-- The world the build touches: the persisted state record, the canonical
output table body, the two raw stores and the banned tab cells. -/
structure World where
  buildState : Option BuildState
  output : List CanonLine
  shopRows : List ShopRow
  sqRows : List SqRow
  bannedCells : List String

/-- The fresh state created when no build is in progress. -/
def freshBuildState : BuildState :=
  { started := true, phase := "shopify", rowCursor := 2, outRow := 2,
    excluded := 0, written := 0, lastOrderKey := "" }

/-- The body of `buildAllOrdersClean` after the lock is held, modelled for a
single uninterrupted invocation (the soft time limit never fires).  A fresh
start clears the output body; a resumed build keeps it and continues from the
persisted cursor and sentinel.  On completion the state record is deleted. -/
def runBuild (w : World) : World × String :=
  let banned := loadBannedFromCells w.bannedCells
  let resumed :=
    match w.buildState with
    | some st => if st.started then some st else none
    | none => none
  let st0 := resumed.getD freshBuildState
  let out0 := if resumed.isSome then w.output else []
  let afterShop :=
    if st0.phase = "shopify" then
      let p := processShopifyRows banned
        (ShopSt.mk st0.lastOrderKey st0.excluded)
        (w.shopRows.drop (st0.rowCursor - 2))
      ({ st0 with
          phase := "squarespace"
          rowCursor := 2
          lastOrderKey := ""
          excluded := p.1.excluded
          written := st0.written + p.2.length }, p.2)
    else (st0, [])
  let afterSq :=
    if afterShop.1.phase = "squarespace" then
      let p := processSquarespaceRows banned (w.sqRows.drop (afterShop.1.rowCursor - 2))
      ({ afterShop.1 with
          excluded := afterShop.1.excluded + p.1.excluded
          written := afterShop.1.written + p.2.length }, p.2)
    else (afterShop.1, [])
  ({ w with buildState := none, output := out0 ++ afterShop.2 ++ afterSq.2 },
   "Built All_Orders_Clean (" ++ toString afterSq.1.written ++ " rows), excluded " ++
     toString afterSq.1.excluded)

/-- `buildAllOrdersClean`: the global script lock is tried first with a
bounded wait (`lockOk` models whether `tryLock(20000)` succeeded); on failure
the call throws before touching any state. -/
def buildAllOrdersClean (lockOk : Bool) (w : World) : World × Except String String :=
  if lockOk then
    let p := runBuild w
    (p.1, Except.ok p.2)
  else
    (w, Except.error "Lock timeout: another process is running. Wait ~10 seconds and try again.")

/-! Concrete sample inputs used by the counterexamples and witnesses. -/

/-- The banned list loaded from an empty `Banned_Emails` tab. -/
def emptyBanned : BannedList := loadBannedFromCells []

/-- A Shopify row with every cell blank. -/
def shopRowBase : ShopRow :=
  { orderId := .vNull, orderNumber := .vNull, processedLocal := .vNull,
    processedAt := .vNull, createdLocal := .vNull, createdAt := .vNull,
    updatedAt := .vNull, financial := .vNull, fulfill := .vNull, currency := .vNull,
    totalDiscounts := .vNull, totalPrice := .vNull, currentTotalPrice := .vNull,
    totalRefunds := .vNull, testOrder := .vNull, email := .vNull, firstName := .vNull,
    lastName := .vNull, lineName := .vNull, lineQty := .vNull, linePrice := .vNull,
    lineSku := .vNull, tags := .vNull }

/-- First line of Shopify order A: totals 10 discount, 0 refund, 90 net. -/
def shopRowA1 : ShopRow :=
  { shopRowBase with
      orderId := .vStr "A"
      orderNumber := .vStr "1001"
      lineName := .vStr "Widget"
      lineQty := .vNum 1
      linePrice := .vNum 5
      totalPrice := .vNum 100
      totalDiscounts := .vNum 10
      currentTotalPrice := .vNum 90
      totalRefunds := .vNum 0 }

/-- A line of Shopify order B, interleaved between the two A lines. -/
def shopRowB1 : ShopRow :=
  { shopRowBase with
      orderId := .vStr "B"
      orderNumber := .vStr "1002"
      lineName := .vStr "Gadget"
      lineQty := .vNum 1
      linePrice := .vNum 7
      totalPrice := .vNum 7
      totalDiscounts := .vNum 0
      currentTotalPrice := .vNum 7
      totalRefunds := .vNum 0 }

/-- Second line of Shopify order A, carrying the same order-level totals. -/
def shopRowA2 : ShopRow :=
  { shopRowA1 with
      lineName := .vStr "Gizmo"
      lineQty := .vNum 2
      linePrice := .vNum 3 }

/-- A Shopify row whose `Current Total Price` and `Total Refunds` cells are
empty: net revenue must come from the fallbacks. -/
def shopRowNoNet : ShopRow :=
  { shopRowBase with
      orderId := .vStr "X"
      orderNumber := .vStr "1003"
      lineName := .vStr "Widget"
      lineQty := .vNum 1
      linePrice := .vNum 5
      totalPrice := .vNum 100
      totalDiscounts := .vNum 10 }

/-- A Squarespace row with every cell blank. -/
def sqRowBase : SqRow :=
  { orderId := .vNull, orderNumber := .vNull, createdOn := .vNull, modifiedOn := .vNull,
    testMode := .vNull, email := .vNull, billFirst := .vNull, billLast := .vNull,
    product := .vNull, sku := .vNull, qty := .vNull, unitPriceValue := .vNull,
    subtotalCurrency := .vNull, discountValue := .vNull, refundedValue := .vNull,
    grandTotalValue := .vNull, grandTotalCurrency := .vNull }

/-- A time value in mid-2026 (2026-06-21T00:00Z). -/
def ms2026 : ℤ := 1782000000000

/-- First line of Squarespace order A, an ordinary 2026 product. -/
def sqRowA1 : SqRow :=
  { sqRowBase with
      orderId := .vStr "A"
      orderNumber := .vStr "2001"
      createdOn := .vDate ms2026
      product := .vStr "Widget"
      qty := .vNum 1
      unitPriceValue := .vNum 10
      grandTotalValue := .vNum 10 }

/-- A line of Squarespace order B, interleaved between the two A lines. -/
def sqRowB1 : SqRow :=
  { sqRowBase with
      orderId := .vStr "B"
      orderNumber := .vStr "2002"
      createdOn := .vDate ms2026
      product := .vStr "Gadget"
      qty := .vNum 1
      unitPriceValue := .vNum 5
      grandTotalValue := .vNum 5 }

/-- Second line of Squarespace order A: a 2026 Montana LLC renewal, which
triggers the duplicate-prevention rule. -/
def sqRowA2 : SqRow :=
  { sqRowA1 with product := .vStr "Montana LLC Renewal" }

/-- A sibling group whose platform field trims to `"Squarespace"` without
being exactly that string, and whose pricing is missing. -/
def paddedPlatformRows : List SqLine :=
  [{ platform := " Squarespace", orderId := "o", quantity := 1, unitPrice := 0,
     lineRevenue := 0, orderNet := 10 }]

/-- A sibling group on another platform with missing pricing. -/
def shopifyPlatformRows : List SqLine :=
  [{ platform := "Shopify", orderId := "s", quantity := 1, unitPrice := 0,
     lineRevenue := 0, orderNet := 10 }]

/-- A one-line Squarespace group that has real pricing (positive unit price)
but a zero order net. -/
def zeroNetPricedRows : List SqLine :=
  [{ platform := "Squarespace", orderId := "o", quantity := 2, unitPrice := 5,
     lineRevenue := 0, orderNet := 0 }]

/-- A two-line Squarespace group with partial pricing and positive net. -/
def partialPricingRows : List SqLine :=
  [{ platform := "Squarespace", orderId := "o", quantity := 2, unitPrice := 5,
     lineRevenue := 0, orderNet := 7 },
   { platform := "Squarespace", orderId := "o", quantity := 4, unitPrice := 0,
     lineRevenue := 8, orderNet := 7 }]

/-- The spec scenario: two unpriced lines with quantities 1 and 3 and order
net 40. -/
def allocScenarioRows : List SqLine :=
  [{ platform := "Squarespace", orderId := "o", quantity := 1, unitPrice := 0,
     lineRevenue := 0, orderNet := 40 },
   { platform := "Squarespace", orderId := "o", quantity := 3, unitPrice := 0,
     lineRevenue := 0, orderNet := 40 }]

/-- A two-line Squarespace group used to exercise permutation invariance. -/
def permScenarioRows : List SqLine :=
  [{ platform := "Squarespace", orderId := "p", quantity := 2, unitPrice := 0,
     lineRevenue := 0, orderNet := 30 },
   { platform := "Squarespace", orderId := "p", quantity := 4, unitPrice := 0,
     lineRevenue := 0, orderNet := 30 }]

/-- Order id of a block of raw rows, read off its first row. -/
def oidOfBlock (bl : List ShopRow) : String := s_ ((bl.headD shopRowBase).orderId)

/-- Order totals of a block of raw rows, read off its first row. -/
def totOfBlock (bl : List ShopRow) : ℚ × ℚ × ℚ := shopOrderTotals (bl.headD shopRowBase)

/-- A concrete in-progress Squarespace group for exercising the flush. -/
def c1Group : SqGroup :=
  { meta := { orderId := "Q", orderNumber := "3001", orderDate := some ms2026,
              emailRaw := "", customerName := "", discountTotal := 3, refundTotal := 1,
              netRevenue := 9, currency := "USD", productNames := ["Widget", "Gadget"],
              skus := ["", ""] },
    lines := [{ platform := "Squarespace", orderId := "Q", quantity := 1, unitPrice := 4,
                lineRevenue := 4, orderNet := 9 },
              { platform := "Squarespace", orderId := "Q", quantity := 1, unitPrice := 5,
                lineRevenue := 5, orderNet := 9 }] }

/-- A scan state holding `c1Group` with nothing excluded. -/
def c1St : SqSt := { excludedOrderIds := [], cur := some c1Group, excluded := 0 }

/-- The state after processing `shopRowNoNet` from a fresh Shopify state. -/
def c3wSt : ShopSt := (processShopifyRow emptyBanned ⟨"", 0⟩ shopRowNoNet).1

/-- The canonical line written for `shopRowNoNet`. -/
def c3wLine : CanonLine := (processShopifyRow emptyBanned ⟨"", 0⟩ shopRowNoNet).2.getD default

end CleanMaster


namespace CleanMaster

/-- Every time value produced by the native date parse passes the validity
check. -/
theorem jsDateParseNative_valid (s : String) (ms : ℤ)
    (h : jsDateParseNative s = some ms) : dateMsValidB ms = true := by
  unfold jsDateParseNative at h
  simp only [Option.bind_eq_some] at h
  obtain ⟨⟨y, r1⟩, -, r2, -, ⟨mo, r3⟩, -, r4, -, ⟨da, r5⟩, -, msOfDay, -, h⟩ := h
  split_ifs at h with h1 h2
  exact (Option.some_inj.mp h) ▸ h2

/-- Every time value produced by the string branch of `parseAnyDate_` passes
the validity check. -/
theorem parseAnyDateChars_valid (cs : List Char) (ms : ℤ)
    (h : parseAnyDateChars cs = some ms) : dateMsValidB ms = true := by
  unfold parseAnyDateChars at h
  split_ifs at h with h1 h2
  · cases hn : jsDateParseNative ⟨cs⟩ with
    | none =>
      simp only [hn] at h
      exact jsDateParseNative_valid _ _ h
    | some d =>
      simp only [hn] at h
      exact (Option.some_inj.mp h) ▸ jsDateParseNative_valid _ _ hn
  · cases hn : jsDateParseNative ⟨cs⟩ with
    | none =>
      simp only [hn] at h
      exact absurd h (by simp)
    | some d =>
      simp only [hn] at h
      exact (Option.some_inj.mp h) ▸ jsDateParseNative_valid _ _ hn

/-- Validity for the `parseAnyDateStr` wrapper. -/
theorem parseAnyDateStr_valid (v : Value) (ms : ℤ)
    (h : parseAnyDateStr v = some ms) : dateMsValidB ms = true :=
  parseAnyDateChars_valid _ _ h

/-- C8: `parseAnyDate_` is total and never throws — for every input value
(native date, finite number, arbitrary string, null, empty string) it returns
either a valid date or null; in particular an unparseable string yields null
rather than an exception. -/
theorem parseAnyDate_total_and_valid :
    (∀ v : Value, parseAnyDate_ v = none ∨
      ∃ ms : ℤ, parseAnyDate_ v = some ms ∧ dateMsValidB ms = true) ∧
    parseAnyDate_ (Value.vStr "definitely not a date") = none := by
  constructor
  · intro v
    by_cases hv : parseAnyDate_ v = none
    · exact Or.inl hv
    · refine Or.inr ?_
      obtain ⟨ms, hms⟩ := Option.ne_none_iff_exists'.mp hv
      refine ⟨ms, hms, ?_⟩
      unfold parseAnyDate_ at hms
      split_ifs at hms with h0
      cases v with
      | vNull => simp at h0
      | vStr s => exact parseAnyDateStr_valid _ _ hms
      | vBool b => exact parseAnyDateStr_valid _ _ hms
      | vNum q =>
        simp only at hms
        split_ifs at hms with h1
        exact (Option.some_inj.mp hms) ▸ h1
      | vDate d =>
        simp only at hms
        split_ifs at hms with h1
        · exact (Option.some_inj.mp hms) ▸ h1
        · exact parseAnyDateStr_valid _ _ hms
  · decide

/-- C9: when the global script lock cannot be acquired within the bounded
wait, `buildAllOrdersClean` raises the retry error and performs no state
mutation — the persisted build state, the canonical output table and the raw
stores are returned exactly as they were. -/
theorem build_lock_failure_no_mutation (w : World) :
    buildAllOrdersClean false w =
      (w, Except.error
        "Lock timeout: another process is running. Wait ~10 seconds and try again.") := by
  rfl

/-- C10 (amended): the pricing-repair function is a no-op whenever the first
row's platform field, stringified and trimmed, differs from `"Squarespace"`;
a platform that merely trims to `"Squarespace"` is still repaired. -/
theorem fix_pricing_platform_guard_noop (rows : List SqLine) (r0 : SqLine)
    (rest : List SqLine) (hrows : rows = r0 :: rest)
    (hp : jsTrim r0.platform ≠ "Squarespace") :
    fixSquarespaceLinePricing_ rows = rows := by
  subst hrows
  simp only [fixSquarespaceLinePricing_]
  rw [if_pos hp]

/-- Counterexample to C10 as stated: a first row whose platform is
`" Squarespace"` (not exactly `"Squarespace"`) is still repaired — the
function is not a no-op for it. -/
theorem fix_pricing_platform_guard_counterexample :
    (paddedPlatformRows.getD 0 default).platform ≠ "Squarespace" ∧
    fixSquarespaceLinePricing_ paddedPlatformRows ≠ paddedPlatformRows := by
  decide

/-- Witness for the amended C10 on a concrete non-Squarespace group. -/
theorem fix_pricing_platform_guard_witness :
    jsTrim (shopifyPlatformRows.getD 0 default).platform ≠ "Squarespace" ∧
    fixSquarespaceLinePricing_ shopifyPlatformRows = shopifyPlatformRows :=
  ⟨by decide,
   fix_pricing_platform_guard_noop shopifyPlatformRows
     { platform := "Shopify", orderId := "s", quantity := 1, unitPrice := 0,
       lineRevenue := 0, orderNet := 10 } [] rfl (by decide)⟩

/-- C6: an email whose normalization coincides with the normalization of an
exact-ban entry present in the loaded set is banned (the normalization is
applied to both sides; the emptiness guard never fires for a loaded entry's
match because a real email normalizes to a nonempty string). -/
theorem banned_email_normalized_membership (emailRaw entry : String)
    (banned : BannedList)
    (h1 : normalizeEmailForCompare_ emailRaw = normalizeEmailForCompare_ entry)
    (h2 : normalizeEmailForCompare_ entry ∈ banned.exact)
    (h3 : normalizeEmailForCompare_ emailRaw ≠ "") :
    isBannedEmail_ emailRaw banned = true := by
  simp only [isBannedEmail_]
  rw [h1] at h3 ⊢
  rw [if_neg h3, if_pos h2]

/-- An absent-or-empty cell stringifies to `""`. -/
theorem s_of_absent (v : Value) (h : cellAbsentOrEmptyB v = true) : s_ v = "" := by
  cases v <;> simp_all [cellAbsentOrEmptyB, s_, jsStringOf]

/-- An absent-or-empty cell parses to money 0. -/
theorem parseMoney_of_absent (v : Value) (h : cellAbsentOrEmptyB v = true) :
    parseMoney_ v = 0 := by
  cases v <;> simp_all [cellAbsentOrEmptyB, parseMoney_, jsStringOf]

/-- With `Current Total Price` absent or empty, the computed net revenue is
the absolute gross total (the discount total is not subtracted). -/
theorem shopOrderTotals_net_fallback (r : ShopRow)
    (hc : cellAbsentOrEmptyB r.currentTotalPrice = true) :
    (shopOrderTotals r).2.2 = |parseMoney_ r.totalPrice| := by
  have h1 := parseMoney_of_absent _ hc
  have h2 := s_of_absent _ hc
  simp [shopOrderTotals, h1, h2]

/-- With `Total Refunds` absent or empty, the computed refund total is
`max 0 (gross - net)`. -/
theorem shopOrderTotals_refund_fallback (r : ShopRow)
    (hr : cellAbsentOrEmptyB r.totalRefunds = true) :
    (shopOrderTotals r).2.1 = max 0 (|parseMoney_ r.totalPrice| - (shopOrderTotals r).2.2) := by
  have h2 := s_of_absent _ hr
  simp [shopOrderTotals, h2]

/-- A Shopify row that produces a line while its order key differs from the
sentinel writes the computed order totals on that line. -/
theorem processShopifyRow_first_line_totals (banned : BannedList) (st : ShopSt)
    (r : ShopRow) (st' : ShopSt) (l : CanonLine)
    (hrun : processShopifyRow banned st r = (st', some l))
    (hfirst : "Shopify||" ++ s_ r.orderId ≠ st.lastOrderKey) :
    l.orderDiscountTotal = (shopOrderTotals r).1 ∧
    l.orderRefundTotal = (shopOrderTotals r).2.1 ∧
    l.orderNetRevenue = (shopOrderTotals r).2.2 := by
  simp only [processShopifyRow] at hrun
  split_ifs at hrun <;> try simp at hrun
  all_goals first
    | exact absurd (by assumption : "Shopify||" ++ s_ r.orderId = st.lastOrderKey) hfirst
    | · obtain ⟨-, hl⟩ := hrun
        rw [← hl]
        exact ⟨rfl, rfl, rfl⟩

/-- C3 (amended): in the Shopify phase, for a row with an absent-or-empty
`Current Total Price` cell the order-level net revenue written on the
totals-bearing line is the absolute gross total alone (the absolute discount
total is not subtracted from it), and for a row with an absent-or-empty
`Total Refunds` cell the refund total written is
`max(0, grossTotal - netRevenue)`. -/
theorem shop_net_refund_fallbacks (banned : BannedList) (st : ShopSt) (r : ShopRow)
    (st' : ShopSt) (l : CanonLine)
    (hrun : processShopifyRow banned st r = (st', some l))
    (hfirst : "Shopify||" ++ s_ r.orderId ≠ st.lastOrderKey) :
    (cellAbsentOrEmptyB r.currentTotalPrice = true →
      l.orderNetRevenue = |parseMoney_ r.totalPrice|) ∧
    (cellAbsentOrEmptyB r.totalRefunds = true →
      l.orderRefundTotal = max 0 (|parseMoney_ r.totalPrice| - l.orderNetRevenue)) := by
  obtain ⟨-, hrf, hnet⟩ := processShopifyRow_first_line_totals banned st r st' l hrun hfirst
  constructor
  · intro hc
    rw [hnet]
    exact shopOrderTotals_net_fallback r hc
  · intro hc
    rw [hrf, hnet]
    exact shopOrderTotals_refund_fallback r hc

/-- Counterexample to C3 as stated: a row with gross 100, discount 10 and an
empty `Current Total Price` cell is written with net revenue 100, not
`|gross| - |discount| = 90`. -/
theorem shop_net_fallback_counterexample :
    cellAbsentOrEmptyB shopRowNoNet.currentTotalPrice = true ∧
    (processShopifyRows emptyBanned ⟨"", 0⟩ [shopRowNoNet]).2.map
      (fun l => l.orderNetRevenue) = [100] ∧
    |parseMoney_ shopRowNoNet.totalPrice| - |parseMoney_ shopRowNoNet.totalDiscounts| = 90 ∧
    (100 : ℚ) ≠ 90 := by decide

/-- Witness for the amended C3 at the concrete row `shopRowNoNet`. -/
theorem shop_net_refund_fallbacks_witness :
    (processShopifyRow emptyBanned ⟨"", 0⟩ shopRowNoNet = (c3wSt, some c3wLine) ∧
     "Shopify||" ++ s_ shopRowNoNet.orderId ≠ (ShopSt.mk "" 0).lastOrderKey ∧
     cellAbsentOrEmptyB shopRowNoNet.currentTotalPrice = true ∧
     cellAbsentOrEmptyB shopRowNoNet.totalRefunds = true) ∧
    c3wLine.orderNetRevenue = |parseMoney_ shopRowNoNet.totalPrice| ∧
    c3wLine.orderRefundTotal =
      max 0 (|parseMoney_ shopRowNoNet.totalPrice| - c3wLine.orderNetRevenue) :=
  ⟨⟨by decide, by decide, by decide, by decide⟩,
   (shop_net_refund_fallbacks emptyBanned ⟨"", 0⟩ shopRowNoNet c3wSt c3wLine
      (by decide) (by decide)).1 (by decide),
   (shop_net_refund_fallbacks emptyBanned ⟨"", 0⟩ shopRowNoNet c3wSt c3wLine
      (by decide) (by decide)).2 (by decide)⟩

/-- JavaScript `x || 0` is the identity on finite numbers. -/
theorem jsOr_zero (x : ℚ) : jsOr x 0 = x := by
  unfold jsOr
  split_ifs with h
  · exact h.symm
  · rfl

/-- The quantity floor `Math.max(1, Number(q) || 1)` equals `max q 1`. -/
theorem max_one_jsOr (x : ℚ) : max 1 (jsOr x 1) = max x 1 := by
  unfold jsOr
  split_ifs with h
  · simp [h]
  · rw [max_comm]

/-- C4 (amended): when a sibling group has real pricing (some line with
positive unit price or line revenue) and the order net revenue is positive,
the pricing repair derives `lineRevenue = unitPrice × max(quantity, 1)` for
lines with `lineRevenue ≤ 0 < unitPrice`, derives
`unitPrice = lineRevenue / max(quantity, 1)` for lines with
`unitPrice ≤ 0 < lineRevenue`, and leaves lines that already have both
values unchanged.  (As stated the claim fails: for `N ≤ 0` the function
returns before deriving, and the derivation floors the quantity at 1.) -/
theorem fix_pricing_derives_when_priced (rows : List SqLine) (r0 : SqLine)
    (rest : List SqLine) (hrows : rows = r0 :: rest)
    (hplat : jsTrim r0.platform = "Squarespace")
    (hnet : 0 < r0.orderNet)
    (hhas : ∃ r ∈ rows, 0 < r.lineRevenue ∨ 0 < r.unitPrice) :
    fixSquarespaceLinePricing_ rows = rows.map (fun r =>
      { r with
        lineRevenue := if r.lineRevenue ≤ 0 ∧ 0 < r.unitPrice
          then r.unitPrice * max r.quantity 1 else r.lineRevenue
        unitPrice := if r.unitPrice ≤ 0 ∧ 0 < r.lineRevenue
          then r.lineRevenue / max r.quantity 1 else r.unitPrice }) := by
  subst hrows
  simp only [fixSquarespaceLinePricing_]
  rw [if_neg (not_ne_iff.mpr hplat)]
  rw [if_neg (by rw [jsOr_zero]; exact not_le.mpr hnet)]
  rw [if_pos (by
    simp only [List.any_eq_true, Bool.or_eq_true, decide_eq_true_eq, jsOr_zero]
    exact hhas)]
  refine List.map_congr_left ?_
  intro r _
  simp only [jsOr_zero, max_one_jsOr]

/-- Counterexample to C4 as stated: a group with real pricing (unit price 5)
but zero order net is returned untouched — the line revenue is not derived as
`unitPrice × quantity = 10`. -/
theorem fix_pricing_derives_counterexample :
    (∃ r ∈ zeroNetPricedRows, 0 < r.lineRevenue ∨ 0 < r.unitPrice) ∧
    (zeroNetPricedRows.map fun r => r.unitPrice * r.quantity) = [10] ∧
    fixSquarespaceLinePricing_ zeroNetPricedRows = zeroNetPricedRows ∧
    (zeroNetPricedRows.map fun r => r.lineRevenue) = [0] ∧
    (0 : ℚ) ≠ 10 := by decide

/-- Witness for the amended C4 on a concrete partially priced group. -/
theorem fix_pricing_derives_witness :
    (jsTrim " Squarespace" = "Squarespace" ∧
     (∃ r ∈ partialPricingRows, 0 < r.lineRevenue ∨ 0 < r.unitPrice)) ∧
    fixSquarespaceLinePricing_ partialPricingRows = partialPricingRows.map (fun r =>
      { r with
        lineRevenue := if r.lineRevenue ≤ 0 ∧ 0 < r.unitPrice
          then r.unitPrice * max r.quantity 1 else r.lineRevenue
        unitPrice := if r.unitPrice ≤ 0 ∧ 0 < r.lineRevenue
          then r.lineRevenue / max r.quantity 1 else r.unitPrice }) :=
  ⟨⟨by decide, by decide⟩,
   fix_pricing_derives_when_priced partialPricingRows
     { platform := "Squarespace", orderId := "o", quantity := 2, unitPrice := 5,
       lineRevenue := 0, orderNet := 7 }
     [{ platform := "Squarespace", orderId := "o", quantity := 4, unitPrice := 0,
        lineRevenue := 8, orderNet := 7 }]
     rfl (by decide) (by decide) (by decide)⟩

/-- The quantity-share denominator is positive for a nonempty group. -/
theorem maxq_sum_pos (r0 : SqLine) (l : List SqLine) :
    0 < ((r0 :: l).map fun r => max r.quantity 1).sum := by
  simp only [List.map_cons, List.sum_cons]
  have h1 : (1 : ℚ) ≤ max r0.quantity 1 := le_max_right _ _
  have h2 : (0 : ℚ) ≤ (l.map fun r => max r.quantity 1).sum := by
    apply List.sum_nonneg
    intro x hx
    obtain ⟨r, -, rfl⟩ := List.mem_map.mp hx
    exact le_trans zero_le_one (le_max_right _ _)
  linarith

/-- C2: when the pricing repair allocates over a non-empty Squarespace
sibling group in which no line has positive unit price or line revenue and
the shared order net `N` is positive, every line `i` receives
`lineRevenue_i = N * (q_i / Σ q_j)` with `q_i = max(quantity_i, 1)` and
`unitPrice_i = lineRevenue_i / q_i`, and the line revenues sum exactly to `N`
in rational arithmetic. -/
theorem fix_pricing_allocates_proportionally (rows : List SqLine) (N : ℚ)
    (r0 : SqLine) (rest : List SqLine) (hrows : rows = r0 :: rest)
    (hplat : ∀ r ∈ rows, r.platform = "Squarespace")
    (hnone : ∀ r ∈ rows, r.lineRevenue ≤ 0 ∧ r.unitPrice ≤ 0)
    (hnet : ∀ r ∈ rows, r.orderNet = N) (hN : 0 < N) :
    fixSquarespaceLinePricing_ rows = rows.map (fun r =>
      { r with
        lineRevenue := N * (max r.quantity 1 / ((rows.map fun x => max x.quantity 1).sum))
        unitPrice := N * (max r.quantity 1 / ((rows.map fun x => max x.quantity 1).sum)) /
          max r.quantity 1 }) ∧
    ((fixSquarespaceLinePricing_ rows).map fun r => r.lineRevenue).sum = N := by
  subst hrows
  have hp0 : r0.platform = "Squarespace" := hplat r0 (by simp)
  have hn0 : r0.orderNet = N := hnet r0 (by simp)
  have hQ : 0 < ((r0 :: rest).map fun x => max x.quantity 1).sum := maxq_sum_pos r0 rest
  have hmap : fixSquarespaceLinePricing_ (r0 :: rest) = (r0 :: rest).map (fun r =>
      { r with
        lineRevenue := N *
          (max r.quantity 1 / (((r0 :: rest).map fun x => max x.quantity 1).sum))
        unitPrice := N *
          (max r.quantity 1 / (((r0 :: rest).map fun x => max x.quantity 1).sum)) /
          max r.quantity 1 }) := by
    simp only [fixSquarespaceLinePricing_]
    rw [if_neg (not_ne_iff.mpr (by rw [hp0]; decide))]
    rw [if_neg (by rw [jsOr_zero, hn0]; exact not_le.mpr hN)]
    rw [if_neg (by
      simp only [List.any_eq_true, Bool.or_eq_true, decide_eq_true_eq, jsOr_zero]
      rintro ⟨r, hr, hor⟩
      rcases hor with h | h
      · exact absurd h (not_lt.mpr (hnone r hr).1)
      · exact absurd h (not_lt.mpr (hnone r hr).2))]
    simp only [max_one_jsOr]
    rw [if_neg (not_le.mpr hQ)]
    simp only [jsOr_zero, hn0]
  refine ⟨hmap, ?_⟩
  rw [hmap, List.map_map]
  show (((r0 :: rest)).map fun r =>
    N * (max r.quantity 1 / (((r0 :: rest).map fun x => max x.quantity 1).sum))).sum = N
  have hfun : (fun r : SqLine =>
      N * (max r.quantity 1 / (((r0 :: rest).map fun x => max x.quantity 1).sum))) =
      fun r : SqLine =>
        (N / (((r0 :: rest).map fun x => max x.quantity 1).sum)) * max r.quantity 1 := by
    funext r
    ring
  rw [hfun, List.sum_map_mul_left, div_mul_cancel₀ N (ne_of_gt hQ)]

/-- Witness for C2 on the spec scenario (quantities 1 and 3, order net 40). -/
theorem fix_pricing_allocates_witness :
    ((∀ r ∈ allocScenarioRows, r.platform = "Squarespace") ∧
     (∀ r ∈ allocScenarioRows, r.lineRevenue ≤ 0 ∧ r.unitPrice ≤ 0) ∧
     (∀ r ∈ allocScenarioRows, r.orderNet = 40) ∧ (0 : ℚ) < 40) ∧
    (fixSquarespaceLinePricing_ allocScenarioRows = allocScenarioRows.map (fun r =>
      { r with
        lineRevenue := 40 *
          (max r.quantity 1 / ((allocScenarioRows.map fun x => max x.quantity 1).sum))
        unitPrice := 40 *
          (max r.quantity 1 / ((allocScenarioRows.map fun x => max x.quantity 1).sum)) /
          max r.quantity 1 }) ∧
     ((fixSquarespaceLinePricing_ allocScenarioRows).map fun r => r.lineRevenue).sum = 40) :=
  ⟨⟨by decide, by decide, by decide, by decide⟩,
   fix_pricing_allocates_proportionally allocScenarioRows 40
     { platform := "Squarespace", orderId := "o", quantity := 1, unitPrice := 0,
       lineRevenue := 0, orderNet := 40 }
     [{ platform := "Squarespace", orderId := "o", quantity := 3, unitPrice := 0,
        lineRevenue := 0, orderNet := 40 }]
     rfl (by decide) (by decide) (by decide) (by decide)⟩

/-- The pricing repair preserves the number of lines. -/
theorem fix_length (rows : List SqLine) :
    (fixSquarespaceLinePricing_ rows).length = rows.length := by
  cases rows with
  | nil => rfl
  | cons r0 rest =>
    simp only [fixSquarespaceLinePricing_]
    split_ifs <;> simp

/-- The pricing repair is a no-op when the platform guard fails or the order
net is not positive. -/
theorem fix_noop_aux (r0 : SqLine) (rest : List SqLine)
    (h : jsTrim r0.platform ≠ "Squarespace" ∨ jsOr r0.orderNet 0 ≤ 0) :
    fixSquarespaceLinePricing_ (r0 :: rest) = r0 :: rest := by
  simp only [fixSquarespaceLinePricing_]
  by_cases h1 : jsTrim r0.platform ≠ "Squarespace"
  · rw [if_pos h1]
  · rcases h with h | h
    · exact absurd h h1
    · rw [if_neg h1, if_pos h]

/-- Branch characterization: with the guards passed and real pricing present,
the repair maps the derivation over the lines. -/
theorem fix_derive_aux (r0 : SqLine) (rest : List SqLine)
    (h1 : jsTrim r0.platform = "Squarespace") (h2 : 0 < jsOr r0.orderNet 0)
    (h3 : ((r0 :: rest).any fun r =>
      decide (0 < jsOr r.lineRevenue 0) || decide (0 < jsOr r.unitPrice 0)) = true) :
    fixSquarespaceLinePricing_ (r0 :: rest) = (r0 :: rest).map (fun r =>
      { r with
        lineRevenue := if jsOr r.lineRevenue 0 ≤ 0 ∧ 0 < jsOr r.unitPrice 0
          then jsOr r.unitPrice 0 * max 1 (jsOr r.quantity 1) else r.lineRevenue
        unitPrice := if jsOr r.unitPrice 0 ≤ 0 ∧ 0 < jsOr r.lineRevenue 0
          then jsOr r.lineRevenue 0 / max 1 (jsOr r.quantity 1) else r.unitPrice }) := by
  simp only [fixSquarespaceLinePricing_]
  rw [if_neg (not_ne_iff.mpr h1), if_neg (not_le.mpr h2), if_pos h3]

/-- The allocation denominator is positive. -/
theorem jsOr_qty_sum_pos (r0 : SqLine) (rest : List SqLine) :
    0 < ((r0 :: rest).map fun r => max 1 (jsOr r.quantity 1)).sum := by
  have h : ((r0 :: rest).map fun r => max 1 (jsOr r.quantity 1)) =
      ((r0 :: rest).map fun r => max r.quantity 1) :=
    List.map_congr_left fun r _ => max_one_jsOr r.quantity
  rw [h]
  exact maxq_sum_pos r0 rest

/-- Branch characterization: with the guards passed and no real pricing, the
repair maps the proportional allocation over the lines. -/
theorem fix_alloc_aux (r0 : SqLine) (rest : List SqLine)
    (h1 : jsTrim r0.platform = "Squarespace") (h2 : 0 < jsOr r0.orderNet 0)
    (h3 : ((r0 :: rest).any fun r =>
      decide (0 < jsOr r.lineRevenue 0) || decide (0 < jsOr r.unitPrice 0)) = false) :
    fixSquarespaceLinePricing_ (r0 :: rest) = (r0 :: rest).map (fun r =>
      { r with
        lineRevenue := jsOr r0.orderNet 0 * (max 1 (jsOr r.quantity 1) /
          ((r0 :: rest).map fun x => max 1 (jsOr x.quantity 1)).sum)
        unitPrice := jsOr r0.orderNet 0 * (max 1 (jsOr r.quantity 1) /
          ((r0 :: rest).map fun x => max 1 (jsOr x.quantity 1)).sum) /
          max 1 (jsOr r.quantity 1) }) := by
  simp only [fixSquarespaceLinePricing_]
  rw [if_neg (not_ne_iff.mpr h1), if_neg (not_le.mpr h2),
    if_neg (by rw [h3]; exact Bool.false_ne_true)]
  have hif : (if (((r0 :: rest).map fun x => max 1 (jsOr x.quantity 1)).sum ≤ 0)
      then ((r0 :: rest).length : ℚ)
      else ((r0 :: rest).map fun x => max 1 (jsOr x.quantity 1)).sum) =
      ((r0 :: rest).map fun x => max 1 (jsOr x.quantity 1)).sum :=
    if_neg (not_le.mpr (jsOr_qty_sum_pos r0 rest))
  simp only [hif]

/-- Membership is preserved by reindexing a list along a permutation. -/
theorem perm_ofFn_mem (rows : List SqLine) (σ : Equiv.Perm (Fin rows.length))
    (a : SqLine) : (a ∈ List.ofFn fun i => rows.get (σ i)) ↔ a ∈ rows := by
  rw [List.mem_ofFn]
  constructor
  · rintro ⟨i, rfl⟩
    exact List.get_mem _ _ _
  · intro ha
    obtain ⟨j, rfl⟩ := List.mem_iff_get.mp ha
    exact ⟨σ.symm j, by simp⟩

/-- `List.any` is invariant under reindexing along a permutation. -/
theorem perm_ofFn_any (rows : List SqLine) (σ : Equiv.Perm (Fin rows.length))
    (gp : SqLine → Bool) :
    (List.ofFn fun i => rows.get (σ i)).any gp = rows.any gp := by
  rw [Bool.eq_iff_iff, List.any_eq_true, List.any_eq_true]
  constructor <;> rintro ⟨x, hx, hgx⟩
  · exact ⟨x, (perm_ofFn_mem rows σ x).mp hx, hgx⟩
  · exact ⟨x, (perm_ofFn_mem rows σ x).mpr hx, hgx⟩

/-- Mapped sums are invariant under reindexing along a permutation. -/
theorem perm_ofFn_map_sum (rows : List SqLine) (σ : Equiv.Perm (Fin rows.length))
    (g : SqLine → ℚ) :
    ((List.ofFn fun i => rows.get (σ i)).map g).sum = (rows.map g).sum := by
  rw [List.map_ofFn, List.sum_ofFn]
  simp only [Function.comp]
  rw [Equiv.sum_comp σ (fun i => g (rows.get i))]
  rw [show (fun i => g (rows.get i)) = g ∘ rows.get from rfl, ← List.sum_ofFn,
    ← List.map_ofFn, List.ofFn_get]

/-- Reading the repaired list through the length-preserving cast, when the
repair was the identity. -/
theorem get_fix_id (rows : List SqLine) (hm : fixSquarespaceLinePricing_ rows = rows)
    (i : Fin rows.length) :
    (fixSquarespaceLinePricing_ rows).get (Fin.cast (fix_length rows).symm i) =
      rows.get i := by
  rw [List.get_of_eq hm]
  congr 1

/-- Reading the repaired list through the length-preserving cast, when the
repair mapped `f` over the lines. -/
theorem get_fix_map (rows : List SqLine) (f : SqLine → SqLine)
    (hm : fixSquarespaceLinePricing_ rows = rows.map f) (i : Fin rows.length) :
    (fixSquarespaceLinePricing_ rows).get (Fin.cast (fix_length rows).symm i) =
      f (rows.get i) := by
  rw [List.get_of_eq hm, List.get_eq_getElem, List.get_eq_getElem]
  simp [List.getElem_map]

/-- C7: the pricing repair is deterministic and line-order-independent — for
a sibling group sharing one platform and one `orderNet`, repairing a
permutation of the lines yields exactly the same permutation of the repaired
lines. -/
theorem fix_pricing_permutation_equivariant (rows : List SqLine)
    (σ : Equiv.Perm (Fin rows.length)) (p : String) (N : ℚ)
    (hplat : ∀ r ∈ rows, r.platform = p) (hnet : ∀ r ∈ rows, r.orderNet = N) :
    fixSquarespaceLinePricing_ (List.ofFn fun i => rows.get (σ i)) =
      List.ofFn fun i =>
        (fixSquarespaceLinePricing_ rows).get (Fin.cast (fix_length rows).symm (σ i)) := by
  cases rows with
  | nil =>
    simp [fixSquarespaceLinePricing_]
  | cons r0 rest =>
    have hp0 : jsTrim r0.platform = jsTrim p := by rw [hplat r0 (by simp)]
    have hn0 : jsOr r0.orderNet 0 = N := by rw [jsOr_zero, hnet r0 (by simp)]
    obtain ⟨q0, qrest, hofn⟩ :
        ∃ q0 qrest, (List.ofFn fun i => (r0 :: rest).get (σ i)) = q0 :: qrest := by
      cases hh : (List.ofFn fun i => (r0 :: rest).get (σ i)) with
      | nil =>
        have hlen : (List.ofFn fun i => (r0 :: rest).get (σ i)).length = rest.length + 1 := by
          simp
        rw [hh] at hlen
        simp at hlen
      | cons a b => exact ⟨a, b, rfl⟩
    have hq0mem : q0 ∈ r0 :: rest :=
      (perm_ofFn_mem _ σ q0).mp (hofn ▸ List.mem_cons_self q0 qrest)
    have hq0p : jsTrim q0.platform = jsTrim p := by rw [hplat q0 hq0mem]
    have hq0n : jsOr q0.orderNet 0 = N := by rw [jsOr_zero, hnet q0 hq0mem]
    by_cases c1 : jsTrim p = "Squarespace"
    · by_cases c2 : 0 < N
      · by_cases c3 : ((r0 :: rest).any fun r =>
            decide (0 < jsOr r.lineRevenue 0) || decide (0 < jsOr r.unitPrice 0)) = true
        · have hAnyP : ((q0 :: qrest).any fun r =>
              decide (0 < jsOr r.lineRevenue 0) || decide (0 < jsOr r.unitPrice 0)) = true := by
            rw [← hofn, perm_ofFn_any]
            exact c3
          have hL := fix_derive_aux q0 qrest
            (by rw [hq0p, c1]) (by rw [hq0n]; exact c2) hAnyP
          rw [hofn, hL, ← hofn]
          have hR := fix_derive_aux r0 rest (by rw [hp0, c1]) (by rw [hn0]; exact c2) c3
          rw [List.map_ofFn]
          refine congrArg List.ofFn (funext fun i => ?_)
          rw [get_fix_map _ _ hR]
          rfl
        · have c3' : ((r0 :: rest).any fun r =>
              decide (0 < jsOr r.lineRevenue 0) || decide (0 < jsOr r.unitPrice 0)) = false :=
            Bool.eq_false_iff.mpr c3
          have hAnyP : ((q0 :: qrest).any fun r =>
              decide (0 < jsOr r.lineRevenue 0) || decide (0 < jsOr r.unitPrice 0)) = false := by
            rw [← hofn, perm_ofFn_any]
            exact c3'
          have hSums : ((q0 :: qrest).map fun x => max 1 (jsOr x.quantity 1)).sum =
              ((r0 :: rest).map fun x => max 1 (jsOr x.quantity 1)).sum := by
            rw [← hofn]
            exact perm_ofFn_map_sum _ σ _
          have hL := fix_alloc_aux q0 qrest
            (by rw [hq0p, c1]) (by rw [hq0n]; exact c2) hAnyP
          rw [hofn, hL]
          have hR := fix_alloc_aux r0 rest (by rw [hp0, c1]) (by rw [hn0]; exact c2) c3'
          simp only [hq0n, hSums]
          simp only [← hofn]
          rw [List.map_ofFn]
          refine congrArg List.ofFn (funext fun i => ?_)
          rw [get_fix_map _ _ hR]
          simp only [Function.comp, hn0]
      · have hL := fix_noop_aux q0 qrest (Or.inr (by rw [hq0n]; exact not_lt.mp c2))
        rw [hofn, hL, ← hofn]
        have hR := fix_noop_aux r0 rest (Or.inr (by rw [hn0]; exact not_lt.mp c2))
        refine congrArg List.ofFn (funext fun i => ?_)
        rw [get_fix_id _ hR]
    · have hL := fix_noop_aux q0 qrest (Or.inl (by rw [hq0p]; exact c1))
      rw [hofn, hL, ← hofn]
      have hR := fix_noop_aux r0 rest (Or.inl (by rw [hp0]; exact c1))
      refine congrArg List.ofFn (funext fun i => ?_)
      rw [get_fix_id _ hR]

/-- Witness for C7: swapping the two lines of a concrete group commutes with
the pricing repair. -/
theorem fix_pricing_permutation_witness :
    ((∀ r ∈ permScenarioRows, r.platform = "Squarespace") ∧
     (∀ r ∈ permScenarioRows, r.orderNet = 30)) ∧
    fixSquarespaceLinePricing_ (List.ofFn fun i => permScenarioRows.get
        (Equiv.swap (⟨0, by decide⟩ : Fin permScenarioRows.length) ⟨1, by decide⟩ i)) =
      List.ofFn (fun i => (fixSquarespaceLinePricing_ permScenarioRows).get
        (Fin.cast (fix_length permScenarioRows).symm
          (Equiv.swap (⟨0, by decide⟩ : Fin permScenarioRows.length) ⟨1, by decide⟩ i))) :=
  ⟨⟨by decide, by decide⟩,
   fix_pricing_permutation_equivariant permScenarioRows
     (Equiv.swap ⟨0, by decide⟩ ⟨1, by decide⟩) "Squarespace" 30 (by decide) (by decide)⟩

/-- Reduction lemma for the none contribution. -/
theorem optToList_none : optToList none = [] := rfl

/-- Reduction lemma for the some contribution. -/
theorem optToList_some (l : CanonLine) : optToList (some l) = [l] := rfl

/-- An order key is never the empty initial sentinel. -/
theorem shopKey_ne_empty (s : String) : "Shopify||" ++ s ≠ "" := by
  intro h
  have h2 := congrArg String.length h
  rw [String.length_append] at h2
  have h3 : ("Shopify||" : String).length = 9 := rfl
  have h4 : ("" : String).length = 0 := rfl
  omega

/-- Order keys of distinct order ids are distinct. -/
theorem shopKey_inj (a b : String) (h : "Shopify||" ++ a = "Shopify||" ++ b) : a = b := by
  have h2 := congrArg String.data h
  simp only [String.data_append] at h2
  exact String.ext (List.append_cancel_left h2)

/-- Case analysis for one Shopify row: either it is skipped and the sentinel
is unchanged, or it emits one line carrying the row's order id, the sentinel
becomes the row's order key, and the totals are the computed ones exactly
when the key differed from the incoming sentinel (zero otherwise). -/
theorem processShopifyRow_spec (banned : BannedList) (st : ShopSt) (r : ShopRow) :
    ((processShopifyRow banned st r).2 = none ∧
      (processShopifyRow banned st r).1.lastOrderKey = st.lastOrderKey) ∨
    (∃ l, (processShopifyRow banned st r).2 = some l ∧
      l.orderId = s_ r.orderId ∧
      (processShopifyRow banned st r).1.lastOrderKey = "Shopify||" ++ s_ r.orderId ∧
      (¬ "Shopify||" ++ s_ r.orderId = st.lastOrderKey →
        l.orderDiscountTotal = (shopOrderTotals r).1 ∧
        l.orderRefundTotal = (shopOrderTotals r).2.1 ∧
        l.orderNetRevenue = (shopOrderTotals r).2.2) ∧
      ("Shopify||" ++ s_ r.orderId = st.lastOrderKey →
        l.orderDiscountTotal = 0 ∧ l.orderRefundTotal = 0 ∧ l.orderNetRevenue = 0)) := by
  simp only [processShopifyRow]
  split_ifs
  all_goals first
    | exact Or.inl ⟨rfl, rfl⟩
    | (rename_i hkey hname
       exact Or.inr ⟨_, rfl, rfl, hkey.symm, fun hn => absurd hkey hn,
         fun _ => ⟨rfl, rfl, rfl⟩⟩)
    | (rename_i hkey hname
       exact Or.inr ⟨_, rfl, rfl, rfl, fun _ => ⟨rfl, rfl, rfl⟩,
         fun hy => absurd hy hkey⟩)

/-- The Shopify scan splits over list append. -/
theorem processShopifyRows_append (banned : BannedList) (st : ShopSt)
    (l1 l2 : List ShopRow) :
    processShopifyRows banned st (l1 ++ l2) =
      ((processShopifyRows banned (processShopifyRows banned st l1).1 l2).1,
       (processShopifyRows banned st l1).2 ++
         (processShopifyRows banned (processShopifyRows banned st l1).1 l2).2) := by
  induction l1 generalizing st with
  | nil => simp [processShopifyRows]
  | cons r rs ih =>
    simp only [List.cons_append, processShopifyRows]
    simp only [List.append_eq]
    simp only [ih]
    simp [List.append_assoc]

/-- Scanning rows of the order whose key is already the sentinel leaves the
sentinel unchanged and emits only zero-total lines of that order. -/
theorem processShopifyRows_samekey (banned : BannedList) (k : String)
    (rows : List ShopRow) (st : ShopSt)
    (hoid : ∀ r ∈ rows, s_ r.orderId = k)
    (hkey : st.lastOrderKey = "Shopify||" ++ k) :
    (processShopifyRows banned st rows).1.lastOrderKey = st.lastOrderKey ∧
    ∀ l ∈ (processShopifyRows banned st rows).2,
      l.orderId = k ∧ l.orderDiscountTotal = 0 ∧ l.orderRefundTotal = 0 ∧
      l.orderNetRevenue = 0 := by
  induction rows generalizing st with
  | nil => exact ⟨rfl, by simp [processShopifyRows]⟩
  | cons r rs ih =>
    simp only [processShopifyRows]
    rcases processShopifyRow_spec banned st r with ⟨hn, hk⟩ | ⟨l, hs, hoidl, hk, -, heq⟩
    · rw [hn, optToList_none]
      obtain ⟨ih1, ih2⟩ := ih (processShopifyRow banned st r).1
        (fun x hx => hoid x (List.mem_cons_of_mem r hx)) (by rw [hk]; exact hkey)
      exact ⟨by rw [ih1, hk], by simpa using ih2⟩
    · have hkeyr : "Shopify||" ++ s_ r.orderId = st.lastOrderKey := by
        rw [hoid r (List.mem_cons_self r rs), hkey]
      obtain ⟨hd0, hr0, hn0⟩ := heq hkeyr
      rw [hs, optToList_some]
      obtain ⟨ih1, ih2⟩ := ih (processShopifyRow banned st r).1
        (fun x hx => hoid x (List.mem_cons_of_mem r hx))
        (by rw [hk, hoid r (List.mem_cons_self r rs)])
      refine ⟨by rw [ih1, hk, hkeyr], ?_⟩
      intro l' hl'
      rcases List.mem_cons.mp hl' with rfl | hl'
      · exact ⟨by rw [hoidl]; exact hoid r (List.mem_cons_self r rs), hd0, hr0, hn0⟩
      · exact ih2 l' hl'

/-- Scanning a contiguous block of a fresh order (its key differs from the
incoming sentinel) either emits nothing and keeps the sentinel, or emits the
order's lines with the computed totals on the first and zeros on the rest,
leaving the sentinel at the order's key. -/
theorem processShopifyRows_freshblock (banned : BannedList) (k : String)
    (t : ℚ × ℚ × ℚ) (rows : List ShopRow) (st : ShopSt)
    (hoid : ∀ r ∈ rows, s_ r.orderId = k)
    (htot : ∀ r ∈ rows, shopOrderTotals r = t)
    (hkey : st.lastOrderKey ≠ "Shopify||" ++ k) :
    ((processShopifyRows banned st rows).2 = [] ∧
     (processShopifyRows banned st rows).1.lastOrderKey = st.lastOrderKey) ∨
    (∃ l0 ls, (processShopifyRows banned st rows).2 = l0 :: ls ∧
      l0.orderId = k ∧ l0.orderDiscountTotal = t.1 ∧ l0.orderRefundTotal = t.2.1 ∧
      l0.orderNetRevenue = t.2.2 ∧
      (∀ l ∈ ls, l.orderId = k ∧ l.orderDiscountTotal = 0 ∧ l.orderRefundTotal = 0 ∧
        l.orderNetRevenue = 0) ∧
      (processShopifyRows banned st rows).1.lastOrderKey = "Shopify||" ++ k) := by
  induction rows generalizing st with
  | nil => exact Or.inl ⟨by simp [processShopifyRows], rfl⟩
  | cons r rs ih =>
    simp only [processShopifyRows]
    rcases processShopifyRow_spec banned st r with ⟨hn, hk⟩ | ⟨l, hs, hoidl, hk, hne, -⟩
    · rw [hn, optToList_none]
      rcases ih (processShopifyRow banned st r).1
        (fun x hx => hoid x (List.mem_cons_of_mem r hx))
        (fun x hx => htot x (List.mem_cons_of_mem r hx))
        (by rw [hk]; exact hkey) with ⟨ih1, ih2⟩ | ⟨l0, ls, ih1, ih2⟩
      · exact Or.inl ⟨by simpa using ih1, by rw [ih2, hk]⟩
      · exact Or.inr ⟨l0, ls, by simpa using ih1, ih2⟩
    · have hkeyr : ¬ "Shopify||" ++ s_ r.orderId = st.lastOrderKey := by
        rw [hoid r (List.mem_cons_self r rs)]
        exact fun hh => hkey hh.symm
      obtain ⟨hd0, hr0, hn0⟩ := hne hkeyr
      rw [hs, optToList_some]
      have hkr : (processShopifyRow banned st r).1.lastOrderKey = "Shopify||" ++ k := by
        rw [hk, hoid r (List.mem_cons_self r rs)]
      obtain ⟨t1, t2⟩ := processShopifyRows_samekey banned k rs
        (processShopifyRow banned st r).1
        (fun x hx => hoid x (List.mem_cons_of_mem r hx)) hkr
      refine Or.inr ⟨l, (processShopifyRows banned (processShopifyRow banned st r).1 rs).2,
        by simp, by rw [hoidl]; exact hoid r (List.mem_cons_self r rs),
        by rw [hd0, htot r (List.mem_cons_self r rs)],
        by rw [hr0, htot r (List.mem_cons_self r rs)],
        by rw [hn0, htot r (List.mem_cons_self r rs)], t2, by rw [t1, hkr]⟩

/-- Rows of other orders never emit lines carrying the order id `k`. -/
theorem processShopifyRows_foreign_lines (banned : BannedList) (k : String)
    (rows : List ShopRow) (st : ShopSt)
    (hoid : ∀ r ∈ rows, s_ r.orderId ≠ k) :
    ∀ l ∈ (processShopifyRows banned st rows).2, l.orderId ≠ k := by
  induction rows generalizing st with
  | nil => simp [processShopifyRows]
  | cons r rs ih =>
    simp only [processShopifyRows]
    rcases processShopifyRow_spec banned st r with ⟨hn, -⟩ | ⟨l, hs, hoidl, -, -, -⟩
    · rw [hn, optToList_none]
      simpa using ih (processShopifyRow banned st r).1
        (fun x hx => hoid x (List.mem_cons_of_mem r hx))
    · rw [hs, optToList_some]
      intro l' hl'
      rcases List.mem_cons.mp hl' with rfl | hl'
      · rw [hoidl]
        exact hoid r (List.mem_cons_self r rs)
      · exact ih (processShopifyRow banned st r).1
          (fun x hx => hoid x (List.mem_cons_of_mem r hx)) l' hl'

/-- Rows of other orders never move the sentinel onto the key of `k`. -/
theorem processShopifyRows_foreign_key (banned : BannedList) (k : String)
    (rows : List ShopRow) (st : ShopSt)
    (hoid : ∀ r ∈ rows, s_ r.orderId ≠ k)
    (hkey : st.lastOrderKey ≠ "Shopify||" ++ k) :
    (processShopifyRows banned st rows).1.lastOrderKey ≠ "Shopify||" ++ k := by
  induction rows generalizing st with
  | nil => exact hkey
  | cons r rs ih =>
    simp only [processShopifyRows]
    rcases processShopifyRow_spec banned st r with ⟨-, hk⟩ | ⟨l, -, -, hk, -, -⟩
    · exact ih (processShopifyRow banned st r).1
        (fun x hx => hoid x (List.mem_cons_of_mem r hx)) (by rw [hk]; exact hkey)
    · refine ih (processShopifyRow banned st r).1
        (fun x hx => hoid x (List.mem_cons_of_mem r hx)) ?_
      rw [hk]
      intro hh
      exact hoid r (List.mem_cons_self r rs) (shopKey_inj _ _ hh)

/-- Canonical lines produced for positions 1 and up of a flushed group carry
zero totals. -/
theorem enumFrom_canon_totals (meta : SqMeta) (l : List SqLine) (n : ℕ) :
    ∀ c ∈ (List.enumFrom (n + 1) l).map fun jl => sqCanonLine meta jl.1 jl.2,
      c.orderDiscountTotal = 0 ∧ c.orderRefundTotal = 0 ∧ c.orderNetRevenue = 0 := by
  induction l generalizing n with
  | nil => simp
  | cons x xs ih =>
    intro c hc
    rw [List.enumFrom_cons, List.map_cons] at hc
    rcases List.mem_cons.mp hc with rfl | hc
    · refine ⟨?_, ?_, ?_⟩ <;> simp [sqCanonLine]
    · exact ih (n + 1) c hc

/-- Flushing a nonempty, non-excluded group writes the order totals on the
first emitted line and zeros on every other line of the group. -/
theorem flush_totals_once (st : SqSt) (g : SqGroup)
    (hcur : st.cur = some g) (hid : g.meta.orderId ≠ "") (hlines : g.lines ≠ [])
    (hexc : g.meta.orderId ∉ st.excludedOrderIds) :
    ∃ n, ((flushCurrentOrder_ st).2.map fun l => l.orderDiscountTotal) =
        g.meta.discountTotal :: List.replicate n 0 ∧
      ((flushCurrentOrder_ st).2.map fun l => l.orderRefundTotal) =
        g.meta.refundTotal :: List.replicate n 0 ∧
      ((flushCurrentOrder_ st).2.map fun l => l.orderNetRevenue) =
        g.meta.netRevenue :: List.replicate n 0 := by
  simp only [flushCurrentOrder_, hcur]
  rw [if_neg (not_or.mpr ⟨hid, hlines⟩), if_neg hexc]
  obtain ⟨f0, frest, hfx⟩ := List.exists_cons_of_ne_nil
    (List.ne_nil_of_length_pos (by rw [fix_length]; exact List.length_pos.mpr hlines))
  refine ⟨frest.length, ?_, ?_, ?_⟩
  · rw [hfx, List.enum_cons, List.map_cons, List.map_cons]
    congr 1
    refine List.eq_replicate_iff.mpr ⟨by simp, ?_⟩
    intro x hx
    obtain ⟨c, hc, rfl⟩ := List.mem_map.mp hx
    exact (enumFrom_canon_totals g.meta frest 0 c hc).1
  · rw [hfx, List.enum_cons, List.map_cons, List.map_cons]
    congr 1
    refine List.eq_replicate_iff.mpr ⟨by simp, ?_⟩
    intro x hx
    obtain ⟨c, hc, rfl⟩ := List.mem_map.mp hx
    exact (enumFrom_canon_totals g.meta frest 0 c hc).2.1
  · rw [hfx, List.enum_cons, List.map_cons, List.map_cons]
    congr 1
    refine List.eq_replicate_iff.mpr ⟨by simp, ?_⟩
    intro x hx
    obtain ⟨c, hc, rfl⟩ := List.mem_map.mp hx
    exact (enumFrom_canon_totals g.meta frest 0 c hc).2.2

/-- For grouped Shopify input (each order one contiguous block, distinct
order ids) the canonical lines of each order carry the computed totals on the
first line and zeros on the rest, so the per-order sums equal the source
totals once. -/
theorem shopify_totals_once_grouped (banned : BannedList)
    (blocks : List (List ShopRow)) (oid : List ShopRow → String)
    (tot : List ShopRow → ℚ × ℚ × ℚ)
    (hoid : ∀ b ∈ blocks, ∀ r ∈ b, s_ r.orderId = oid b)
    (htot : ∀ b ∈ blocks, ∀ r ∈ b, shopOrderTotals r = tot b)
    (hdist : (blocks.map oid).Pairwise (· ≠ ·)) (b : List ShopRow) (hb : b ∈ blocks) :
    ((processShopifyRows banned ⟨"", 0⟩ blocks.flatten).2.filter
        (fun l => decide (l.orderId = oid b))) = [] ∨
    ∃ n,
      (((processShopifyRows banned ⟨"", 0⟩ blocks.flatten).2.filter
          (fun l => decide (l.orderId = oid b))).map
        (fun l => l.orderDiscountTotal) = (tot b).1 :: List.replicate n 0) ∧
      (((processShopifyRows banned ⟨"", 0⟩ blocks.flatten).2.filter
          (fun l => decide (l.orderId = oid b))).map
        (fun l => l.orderRefundTotal) = (tot b).2.1 :: List.replicate n 0) ∧
      (((processShopifyRows banned ⟨"", 0⟩ blocks.flatten).2.filter
          (fun l => decide (l.orderId = oid b))).map
        (fun l => l.orderNetRevenue) = (tot b).2.2 :: List.replicate n 0) ∧
      ((((processShopifyRows banned ⟨"", 0⟩ blocks.flatten).2.filter
          (fun l => decide (l.orderId = oid b))).map
        (fun l => l.orderDiscountTotal)).sum = (tot b).1) ∧
      ((((processShopifyRows banned ⟨"", 0⟩ blocks.flatten).2.filter
          (fun l => decide (l.orderId = oid b))).map
        (fun l => l.orderRefundTotal)).sum = (tot b).2.1) ∧
      ((((processShopifyRows banned ⟨"", 0⟩ blocks.flatten).2.filter
          (fun l => decide (l.orderId = oid b))).map
        (fun l => l.orderNetRevenue)).sum = (tot b).2.2) := by
  obtain ⟨pre, post, rfl⟩ := List.append_of_mem hb
  have hdist' := hdist
  rw [List.map_append, List.map_cons, List.pairwise_append] at hdist'
  obtain ⟨-, hpost0, hcross⟩ := hdist'
  rw [List.pairwise_cons] at hpost0
  have hpre_ne : ∀ b' ∈ pre, oid b' ≠ oid b := fun b' hb' =>
    hcross (oid b') (List.mem_map_of_mem oid hb') (oid b) (List.mem_cons_self _ _)
  have hpost_ne : ∀ b' ∈ post, oid b ≠ oid b' := fun b' hb' =>
    hpost0.1 (oid b') (List.mem_map_of_mem oid hb')
  have hflat : (pre ++ b :: post).flatten = pre.flatten ++ (b ++ post.flatten) := by
    rw [List.flatten_append, List.flatten_cons]
  have hforeign_pre : ∀ r ∈ pre.flatten, s_ r.orderId ≠ oid b := by
    intro r hr
    obtain ⟨bl, hbl, hrbl⟩ := List.mem_flatten.mp hr
    rw [hoid bl (List.mem_append_left _ hbl) r hrbl]
    exact hpre_ne bl hbl
  have hforeign_post : ∀ r ∈ post.flatten, s_ r.orderId ≠ oid b := by
    intro r hr
    obtain ⟨bl, hbl, hrbl⟩ := List.mem_flatten.mp hr
    rw [hoid bl (List.mem_append_right _ (List.mem_cons_of_mem _ hbl)) r hrbl]
    exact fun hh => hpost_ne bl hbl hh.symm
  have hbmem : b ∈ pre ++ b :: post := List.mem_append_right _ (List.mem_cons_self _ _)
  have hkey1 : (processShopifyRows banned ⟨"", 0⟩ pre.flatten).1.lastOrderKey ≠
      "Shopify||" ++ oid b :=
    processShopifyRows_foreign_key banned (oid b) pre.flatten ⟨"", 0⟩ hforeign_pre
      (fun hh => shopKey_ne_empty (oid b) hh.symm)
  have hlines_pre : ∀ l ∈ (processShopifyRows banned ⟨"", 0⟩ pre.flatten).2,
      l.orderId ≠ oid b :=
    processShopifyRows_foreign_lines banned (oid b) pre.flatten ⟨"", 0⟩ hforeign_pre
  have hlines_post : ∀ l ∈ (processShopifyRows banned
      (processShopifyRows banned (processShopifyRows banned ⟨"", 0⟩ pre.flatten).1 b).1
      post.flatten).2, l.orderId ≠ oid b :=
    processShopifyRows_foreign_lines banned (oid b) post.flatten _ hforeign_post
  have hout : (processShopifyRows banned ⟨"", 0⟩ (pre ++ b :: post).flatten).2 =
      (processShopifyRows banned ⟨"", 0⟩ pre.flatten).2 ++
      ((processShopifyRows banned (processShopifyRows banned ⟨"", 0⟩ pre.flatten).1 b).2 ++
       (processShopifyRows banned
         (processShopifyRows banned (processShopifyRows banned ⟨"", 0⟩ pre.flatten).1 b).1
         post.flatten).2) := by
    rw [hflat, processShopifyRows_append banned ⟨"", 0⟩ pre.flatten (b ++ post.flatten),
      processShopifyRows_append banned (processShopifyRows banned ⟨"", 0⟩ pre.flatten).1 b
        post.flatten]
  have hfpre : ((processShopifyRows banned ⟨"", 0⟩ pre.flatten).2.filter
      (fun l => decide (l.orderId = oid b))) = [] :=
    List.filter_eq_nil_iff.mpr (fun a ha => by
      simp only [decide_eq_true_eq]
      exact hlines_pre a ha)
  have hfpost : ((processShopifyRows banned
      (processShopifyRows banned (processShopifyRows banned ⟨"", 0⟩ pre.flatten).1 b).1
      post.flatten).2.filter (fun l => decide (l.orderId = oid b))) = [] :=
    List.filter_eq_nil_iff.mpr (fun a ha => by
      simp only [decide_eq_true_eq]
      exact hlines_post a ha)
  rcases processShopifyRows_freshblock banned (oid b) (tot b) b
      (processShopifyRows banned ⟨"", 0⟩ pre.flatten).1
      (hoid b hbmem) (htot b hbmem) hkey1 with ⟨hB, -⟩ | ⟨l0, ls, hB, hl0id, hd, hr, hn, hls, -⟩
  · left
    rw [hout]
    simp only [List.filter_append, hfpre, hfpost, hB]
    simp
  · right
    have hfb : ((processShopifyRows banned
        (processShopifyRows banned ⟨"", 0⟩ pre.flatten).1 b).2.filter
        (fun l => decide (l.orderId = oid b))) = l0 :: ls := by
      rw [hB]
      refine List.filter_eq_self.mpr ?_
      intro a ha
      simp only [decide_eq_true_eq]
      rcases List.mem_cons.mp ha with rfl | ha
      · exact hl0id
      · exact (hls a ha).1
    have hmine : ((processShopifyRows banned ⟨"", 0⟩ (pre ++ b :: post).flatten).2.filter
        (fun l => decide (l.orderId = oid b))) = l0 :: ls := by
      rw [hout]
      simp only [List.filter_append, hfpre, hfpost, hfb]
      simp
    refine ⟨ls.length, ?_⟩
    rw [hmine]
    have hmd : ls.map (fun l => l.orderDiscountTotal) = List.replicate ls.length 0 :=
      List.eq_replicate_iff.mpr ⟨by simp, by
        intro x hx
        obtain ⟨l, hl, rfl⟩ := List.mem_map.mp hx
        exact (hls l hl).2.1⟩
    have hmr : ls.map (fun l => l.orderRefundTotal) = List.replicate ls.length 0 :=
      List.eq_replicate_iff.mpr ⟨by simp, by
        intro x hx
        obtain ⟨l, hl, rfl⟩ := List.mem_map.mp hx
        exact (hls l hl).2.2.1⟩
    have hmn : ls.map (fun l => l.orderNetRevenue) = List.replicate ls.length 0 :=
      List.eq_replicate_iff.mpr ⟨by simp, by
        intro x hx
        obtain ⟨l, hl, rfl⟩ := List.mem_map.mp hx
        exact (hls l hl).2.2.2⟩
    refine ⟨by rw [List.map_cons, hd, hmd], by rw [List.map_cons, hr, hmr],
      by rw [List.map_cons, hn, hmn], ?_, ?_, ?_⟩
    · rw [List.map_cons, hd, hmd]
      simp
    · rw [List.map_cons, hr, hmr]
      simp
    · rw [List.map_cons, hn, hmn]
      simp

/-- C1 (amended): the three order totals are written exactly once per order
under the scan's grouping discipline.  Shopify: provided each order's rows
form one contiguous block of the scan and distinct orders have distinct ids,
the canonical lines of every order carry the source totals on the first line
and zeros on the rest, so summing each total over the order's lines yields
the source value exactly once.  Squarespace: each flush of a nonempty,
non-excluded order group writes the totals on its first line and zeros on
the rest — once per order provided no buffer-flush or pause boundary splits
the order.  (As stated, for every ordering of the raw rows, the claim fails:
rows of one order interleaved with another order are given the totals more
than once.) -/
theorem order_totals_written_once :
    (∀ (banned : BannedList) (blocks : List (List ShopRow))
      (oid : List ShopRow → String) (tot : List ShopRow → ℚ × ℚ × ℚ),
      (∀ b ∈ blocks, ∀ r ∈ b, s_ r.orderId = oid b) →
      (∀ b ∈ blocks, ∀ r ∈ b, shopOrderTotals r = tot b) →
      (blocks.map oid).Pairwise (· ≠ ·) →
      ∀ b ∈ blocks,
        ((processShopifyRows banned ⟨"", 0⟩ blocks.flatten).2.filter
            (fun l => decide (l.orderId = oid b))) = [] ∨
        ∃ n,
          (((processShopifyRows banned ⟨"", 0⟩ blocks.flatten).2.filter
              (fun l => decide (l.orderId = oid b))).map
            (fun l => l.orderDiscountTotal) = (tot b).1 :: List.replicate n 0) ∧
          (((processShopifyRows banned ⟨"", 0⟩ blocks.flatten).2.filter
              (fun l => decide (l.orderId = oid b))).map
            (fun l => l.orderRefundTotal) = (tot b).2.1 :: List.replicate n 0) ∧
          (((processShopifyRows banned ⟨"", 0⟩ blocks.flatten).2.filter
              (fun l => decide (l.orderId = oid b))).map
            (fun l => l.orderNetRevenue) = (tot b).2.2 :: List.replicate n 0) ∧
          ((((processShopifyRows banned ⟨"", 0⟩ blocks.flatten).2.filter
              (fun l => decide (l.orderId = oid b))).map
            (fun l => l.orderDiscountTotal)).sum = (tot b).1) ∧
          ((((processShopifyRows banned ⟨"", 0⟩ blocks.flatten).2.filter
              (fun l => decide (l.orderId = oid b))).map
            (fun l => l.orderRefundTotal)).sum = (tot b).2.1) ∧
          ((((processShopifyRows banned ⟨"", 0⟩ blocks.flatten).2.filter
              (fun l => decide (l.orderId = oid b))).map
            (fun l => l.orderNetRevenue)).sum = (tot b).2.2)) ∧
    (∀ (st : SqSt) (g : SqGroup),
      st.cur = some g → g.meta.orderId ≠ "" → g.lines ≠ [] →
      g.meta.orderId ∉ st.excludedOrderIds →
      ∃ n, ((flushCurrentOrder_ st).2.map fun l => l.orderDiscountTotal) =
          g.meta.discountTotal :: List.replicate n 0 ∧
        ((flushCurrentOrder_ st).2.map fun l => l.orderRefundTotal) =
          g.meta.refundTotal :: List.replicate n 0 ∧
        ((flushCurrentOrder_ st).2.map fun l => l.orderNetRevenue) =
          g.meta.netRevenue :: List.replicate n 0) :=
  ⟨shopify_totals_once_grouped, flush_totals_once⟩

/-- Counterexample to C1 as stated: under the raw ordering A, B, A the two
lines of order A (source totals: discount 10, refund 0, net 90) each receive
the full totals, and the per-order net sum is 180, twice the source value. -/
theorem order_totals_interleaved_counterexample :
    shopOrderTotals shopRowA1 = (10, 0, 90) ∧ shopOrderTotals shopRowA2 = (10, 0, 90) ∧
    s_ shopRowA1.orderId = "A" ∧ s_ shopRowA2.orderId = "A" ∧ s_ shopRowB1.orderId = "B" ∧
    ((((processShopifyRows emptyBanned ⟨"", 0⟩ [shopRowA1, shopRowB1, shopRowA2]).2.filter
        (fun l => decide (l.orderId = "A"))).map fun l => l.orderNetRevenue).sum = 180) ∧
    (180 : ℚ) ≠ 90 := by decide

/-- Witness for the amended C1: a grouped two-line order carries its totals
once, and a concrete group flush writes totals on its first line only. -/
theorem order_totals_written_once_witness :
    ((∀ b ∈ [[shopRowA1, shopRowA2]], ∀ r ∈ b, s_ r.orderId = oidOfBlock b) ∧
     (∀ b ∈ [[shopRowA1, shopRowA2]], ∀ r ∈ b, shopOrderTotals r = totOfBlock b) ∧
     (([[shopRowA1, shopRowA2]].map oidOfBlock).Pairwise (· ≠ ·)) ∧
     [shopRowA1, shopRowA2] ∈ [[shopRowA1, shopRowA2]] ∧
     c1St.cur = some c1Group ∧ c1Group.meta.orderId ≠ "" ∧ c1Group.lines ≠ [] ∧
     c1Group.meta.orderId ∉ c1St.excludedOrderIds) ∧
    (((processShopifyRows emptyBanned ⟨"", 0⟩ [[shopRowA1, shopRowA2]].flatten).2.filter
        (fun l => decide (l.orderId = oidOfBlock [shopRowA1, shopRowA2]))) = [] ∨
     ∃ n,
      (((processShopifyRows emptyBanned ⟨"", 0⟩ [[shopRowA1, shopRowA2]].flatten).2.filter
          (fun l => decide (l.orderId = oidOfBlock [shopRowA1, shopRowA2]))).map
        (fun l => l.orderDiscountTotal) =
          (totOfBlock [shopRowA1, shopRowA2]).1 :: List.replicate n 0) ∧
      (((processShopifyRows emptyBanned ⟨"", 0⟩ [[shopRowA1, shopRowA2]].flatten).2.filter
          (fun l => decide (l.orderId = oidOfBlock [shopRowA1, shopRowA2]))).map
        (fun l => l.orderRefundTotal) =
          (totOfBlock [shopRowA1, shopRowA2]).2.1 :: List.replicate n 0) ∧
      (((processShopifyRows emptyBanned ⟨"", 0⟩ [[shopRowA1, shopRowA2]].flatten).2.filter
          (fun l => decide (l.orderId = oidOfBlock [shopRowA1, shopRowA2]))).map
        (fun l => l.orderNetRevenue) =
          (totOfBlock [shopRowA1, shopRowA2]).2.2 :: List.replicate n 0) ∧
      ((((processShopifyRows emptyBanned ⟨"", 0⟩ [[shopRowA1, shopRowA2]].flatten).2.filter
          (fun l => decide (l.orderId = oidOfBlock [shopRowA1, shopRowA2]))).map
        (fun l => l.orderDiscountTotal)).sum = (totOfBlock [shopRowA1, shopRowA2]).1) ∧
      ((((processShopifyRows emptyBanned ⟨"", 0⟩ [[shopRowA1, shopRowA2]].flatten).2.filter
          (fun l => decide (l.orderId = oidOfBlock [shopRowA1, shopRowA2]))).map
        (fun l => l.orderRefundTotal)).sum = (totOfBlock [shopRowA1, shopRowA2]).2.1) ∧
      ((((processShopifyRows emptyBanned ⟨"", 0⟩ [[shopRowA1, shopRowA2]].flatten).2.filter
          (fun l => decide (l.orderId = oidOfBlock [shopRowA1, shopRowA2]))).map
        (fun l => l.orderNetRevenue)).sum = (totOfBlock [shopRowA1, shopRowA2]).2.2)) ∧
    (∃ n, ((flushCurrentOrder_ c1St).2.map fun l => l.orderDiscountTotal) =
        c1Group.meta.discountTotal :: List.replicate n 0 ∧
      ((flushCurrentOrder_ c1St).2.map fun l => l.orderRefundTotal) =
        c1Group.meta.refundTotal :: List.replicate n 0 ∧
      ((flushCurrentOrder_ c1St).2.map fun l => l.orderNetRevenue) =
        c1Group.meta.netRevenue :: List.replicate n 0) :=
  ⟨⟨by decide, by decide, by decide, by decide, by decide, by decide, by decide, by decide⟩,
   order_totals_written_once.1 emptyBanned [[shopRowA1, shopRowA2]] oidOfBlock totOfBlock
     (by decide) (by decide) (by decide) [shopRowA1, shopRowA2] (by decide),
   order_totals_written_once.2 c1St c1Group (by decide) (by decide) (by decide) (by decide)⟩

/-- Flushing never changes the excluded-order set and either clears the
group or leaves it untouched. -/
theorem flush_state (st : SqSt) :
    (flushCurrentOrder_ st).1.excludedOrderIds = st.excludedOrderIds ∧
    ((flushCurrentOrder_ st).1.cur = none ∨ (flushCurrentOrder_ st).1.cur = st.cur) := by
  cases hc : st.cur with
  | none =>
    simp [flushCurrentOrder_, hc]
  | some g =>
    simp only [flushCurrentOrder_, hc]
    split_ifs with h1 h2
    · exact ⟨rfl, Or.inr hc⟩
    · exact ⟨rfl, Or.inl rfl⟩
    · exact ⟨rfl, Or.inl rfl⟩

/-- Every line emitted by a flush carries the flushed group's order id. -/
theorem flush_out_lines (st : SqSt) :
    ∀ l ∈ (flushCurrentOrder_ st).2, ∃ g, st.cur = some g ∧ l.orderId = g.meta.orderId := by
  intro l hl
  cases hc : st.cur with
  | none =>
    simp only [flushCurrentOrder_, hc] at hl
    simp at hl
  | some g =>
    simp only [flushCurrentOrder_, hc] at hl
    refine ⟨g, rfl, ?_⟩
    split_ifs at hl with h1 h2
    · simp at hl
    · simp at hl
    · have hl2 : ∃ a b, (a, b) ∈ (fixSquarespaceLinePricing_ g.lines).enum ∧
          sqCanonLine g.meta a b = l := by simpa using hl
      obtain ⟨a, b, hab, rfl⟩ := hl2
      rfl

/-- Appending a line never changes the excluded-order set. -/
theorem appendSqLine_excl (st : SqSt) (p s : String) (l : SqLine) :
    (appendSqLine st p s l).excludedOrderIds = st.excludedOrderIds := by
  unfold appendSqLine
  cases st.cur <;> rfl

/-- Appending a line keeps the group's order id (or the absence of a
group). -/
theorem appendSqLine_cur (st : SqSt) (p s : String) (l : SqLine) :
    ∀ g', (appendSqLine st p s l).cur = some g' →
      ∃ g, st.cur = some g ∧ g'.meta.orderId = g.meta.orderId := by
  intro g' hg'
  cases hc : st.cur with
  | none =>
    simp only [appendSqLine, hc] at hg'
    exact Option.noConfusion hg'
  | some g =>
    simp only [appendSqLine, hc, Option.some_inj] at hg'
    exact ⟨g, rfl, by rw [← hg']⟩

set_option maxHeartbeats 4000000 in
/-- Case analysis for one Squarespace row: skipped (state shape and group
untouched, nothing emitted); or triggering the 2026 renewal exclusion (order
id appended to the excluded set, group dropped exactly when it was this
order's, nothing emitted); or surviving (excluded set untouched, the group
afterwards is this order's or the inherited one, and anything emitted came
from flushing a group of a different order). -/
theorem processSqRow_spec (banned : BannedList) (st : SqSt) (r : SqRow) :
    ((processSqRow banned st r).1.excludedOrderIds = st.excludedOrderIds ∧
     (processSqRow banned st r).1.cur = st.cur ∧
     (processSqRow banned st r).2 = []) ∨
    (s_ r.orderId ≠ "" ∧ s_ r.orderId ∉ st.excludedOrderIds ∧
     (processSqRow banned st r).1.excludedOrderIds =
       st.excludedOrderIds ++ [s_ r.orderId] ∧
     ((processSqRow banned st r).1.cur = none ∨
      ((processSqRow banned st r).1.cur = st.cur ∧
        ∀ g, st.cur = some g → g.meta.orderId ≠ s_ r.orderId)) ∧
     (processSqRow banned st r).2 = []) ∨
    (s_ r.orderId ≠ "" ∧ s_ r.orderId ∉ st.excludedOrderIds ∧
     (processSqRow banned st r).1.excludedOrderIds = st.excludedOrderIds ∧
     (∀ g', (processSqRow banned st r).1.cur = some g' →
       (g'.meta.orderId = s_ r.orderId ∨
        ∃ g, st.cur = some g ∧ g'.meta.orderId = g.meta.orderId)) ∧
     (∀ l ∈ (processSqRow banned st r).2,
       ∃ g, st.cur = some g ∧ l.orderId = g.meta.orderId ∧
         g.meta.orderId ≠ s_ r.orderId)) := by
  cases hE : processSqRow banned st r with
  | mk st' out =>
  unfold processSqRow at hE
  cases hcur : st.cur with
  | none =>
    simp only [hcur] at hE
    by_cases h1 : rowIsBlankSq r = true
    · rw [if_pos h1] at hE
      injection hE with hA hB
      subst hA
      subst hB
      exact Or.inl ⟨rfl, (by first | rfl | exact hcur), rfl⟩
    rw [if_neg h1] at hE
    by_cases h2 : truthy_ r.testMode = true
    · rw [if_pos h2] at hE
      injection hE with hA hB
      subst hA
      subst hB
      exact Or.inl ⟨rfl, (by first | rfl | exact hcur), rfl⟩
    rw [if_neg h2] at hE
    by_cases h3 : s_ r.email ≠ "" ∧ isBannedEmail_ (s_ r.email) banned = true
    · rw [if_pos h3] at hE
      injection hE with hA hB
      subst hA
      subst hB
      exact Or.inl ⟨rfl, (by first | rfl | exact hcur), rfl⟩
    rw [if_neg h3] at hE
    by_cases h4 : s_ r.orderId = ""
    · rw [if_pos h4] at hE
      injection hE with hA hB
      subst hA
      subst hB
      exact Or.inl ⟨rfl, (by first | rfl | exact hcur), rfl⟩
    rw [if_neg h4] at hE
    by_cases h5 : s_ r.orderId ∈ st.excludedOrderIds
    · rw [if_pos h5] at hE
      injection hE with hA hB
      subst hA
      subst hB
      exact Or.inl ⟨rfl, (by first | rfl | exact hcur), rfl⟩
    rw [if_neg h5] at hE
    by_cases h6 : s_ r.product = ""
    · rw [if_pos h6] at hE
      injection hE with hA hB
      subst hA
      subst hB
      exact Or.inl ⟨rfl, (by first | rfl | exact hcur), rfl⟩
    rw [if_neg h6] at hE
    by_cases h7 : isBannedProduct_ (s_ r.product) = true
    · rw [if_pos h7] at hE
      injection hE with hA hB
      subst hA
      subst hB
      exact Or.inl ⟨rfl, (by first | rfl | exact hcur), rfl⟩
    rw [if_neg h7] at hE
    by_cases h8 : shouldExcludeSquarespaceOrder_ (sqRowDate r) (s_ r.product) = true
    · rw [if_pos h8] at hE
      injection hE with hA hB
      subst hA
      subst hB
      exact Or.inr (Or.inl ⟨h4, h5, rfl, Or.inl rfl, rfl⟩)
    rw [if_neg h8] at hE
    injection hE with hA hB
    subst hA
    subst hB
    refine Or.inr (Or.inr ⟨h4, h5, rfl, ?_, ?_⟩)
    · intro g' hg'
      cases Option.some_inj.mp hg'
      exact Or.inl rfl
    · intro l hl
      exact absurd hl (List.not_mem_nil l)
  | some g =>
    simp only [hcur] at hE
    by_cases h1 : rowIsBlankSq r = true
    · rw [if_pos h1] at hE
      injection hE with hA hB
      subst hA
      subst hB
      exact Or.inl ⟨rfl, (by first | rfl | exact hcur), rfl⟩
    rw [if_neg h1] at hE
    by_cases h2 : truthy_ r.testMode = true
    · rw [if_pos h2] at hE
      injection hE with hA hB
      subst hA
      subst hB
      exact Or.inl ⟨rfl, (by first | rfl | exact hcur), rfl⟩
    rw [if_neg h2] at hE
    by_cases h3 : s_ r.email ≠ "" ∧ isBannedEmail_ (s_ r.email) banned = true
    · rw [if_pos h3] at hE
      injection hE with hA hB
      subst hA
      subst hB
      exact Or.inl ⟨rfl, (by first | rfl | exact hcur), rfl⟩
    rw [if_neg h3] at hE
    by_cases h4 : s_ r.orderId = ""
    · rw [if_pos h4] at hE
      injection hE with hA hB
      subst hA
      subst hB
      exact Or.inl ⟨rfl, (by first | rfl | exact hcur), rfl⟩
    rw [if_neg h4] at hE
    by_cases h5 : s_ r.orderId ∈ st.excludedOrderIds
    · rw [if_pos h5] at hE
      injection hE with hA hB
      subst hA
      subst hB
      exact Or.inl ⟨rfl, (by first | rfl | exact hcur), rfl⟩
    rw [if_neg h5] at hE
    by_cases h6 : s_ r.product = ""
    · rw [if_pos h6] at hE
      injection hE with hA hB
      subst hA
      subst hB
      exact Or.inl ⟨rfl, (by first | rfl | exact hcur), rfl⟩
    rw [if_neg h6] at hE
    by_cases h7 : isBannedProduct_ (s_ r.product) = true
    · rw [if_pos h7] at hE
      injection hE with hA hB
      subst hA
      subst hB
      exact Or.inl ⟨rfl, (by first | rfl | exact hcur), rfl⟩
    rw [if_neg h7] at hE
    by_cases h8 : shouldExcludeSquarespaceOrder_ (sqRowDate r) (s_ r.product) = true
    · rw [if_pos h8] at hE
      by_cases h9 : g.meta.orderId = s_ r.orderId
      · rw [if_pos h9] at hE
        injection hE with hA hB
        subst hA
        subst hB
        exact Or.inr (Or.inl ⟨h4, h5, rfl, Or.inl rfl, rfl⟩)
      · rw [if_neg h9] at hE
        injection hE with hA hB
        subst hA
        subst hB
        refine Or.inr (Or.inl ⟨h4, h5, rfl, Or.inr ⟨rfl, ?_⟩, rfl⟩)
        intro g0 hg0
        cases Option.some_inj.mp hg0
        exact h9
    rw [if_neg h8] at hE
    by_cases h9 : g.meta.orderId ≠ s_ r.orderId
    · rw [if_pos h9] at hE
      cases hFc : (flushCurrentOrder_ st).1.cur with
      | none =>
        simp only [hFc, appendSqLine] at hE
        injection hE with hA hB
        subst hA
        subst hB
        refine Or.inr (Or.inr ⟨h4, h5, (flush_state st).1, ?_, ?_⟩)
        · intro g' hg'
          cases Option.some_inj.mp hg'
          exact Or.inl rfl
        · intro l hl
          obtain ⟨g0, hg0, hlid⟩ := flush_out_lines st l hl
          rw [hcur] at hg0
          cases Option.some_inj.mp hg0
          exact ⟨g, rfl, hlid, h9⟩
      | some g2 =>
        simp only [hFc, appendSqLine] at hE
        injection hE with hA hB
        subst hA
        subst hB
        refine Or.inr (Or.inr ⟨h4, h5, (flush_state st).1, ?_, ?_⟩)
        · intro g' hg'
          cases Option.some_inj.mp hg'
          rcases (flush_state st).2 with hno | hsame
          · rw [hFc] at hno
            exact Option.noConfusion hno
          · rw [hFc] at hsame
            exact Or.inr ⟨g2, (hsame.trans hcur).symm, rfl⟩
        · intro l hl
          obtain ⟨g0, hg0, hlid⟩ := flush_out_lines st l hl
          rw [hcur] at hg0
          cases Option.some_inj.mp hg0
          exact ⟨g, rfl, hlid, h9⟩
    · rw [if_neg h9] at hE
      simp only [hcur, appendSqLine] at hE
      injection hE with hA hB
      subst hA
      subst hB
      refine Or.inr (Or.inr ⟨h4, h5, rfl, ?_, ?_⟩)
      · intro g' hg'
        cases Option.some_inj.mp hg'
        exact Or.inl (not_not.mp h9)
      · intro l hl
        exact absurd hl (List.not_mem_nil l)

/-- Scanning an appended row list is scanning the first part, then the
second from the resulting state, with outputs concatenated. -/
theorem processSqRowsAux_append (banned : BannedList) (st : SqSt) (l1 l2 : List SqRow) :
    processSqRowsAux banned st (l1 ++ l2) =
      ((processSqRowsAux banned (processSqRowsAux banned st l1).1 l2).1,
       (processSqRowsAux banned st l1).2 ++
         (processSqRowsAux banned (processSqRowsAux banned st l1).1 l2).2) := by
  induction l1 generalizing st with
  | nil => simp [processSqRowsAux]
  | cons r rs ih =>
    simp only [List.cons_append, processSqRowsAux]
    simp only [List.append_eq]
    simp only [ih]
    simp [List.append_assoc]

/-- A row that reaches the duplicate-prevention check and triggers it marks
its order id as excluded, leaves no group of that order behind and emits
nothing. -/
theorem processSqRow_trigger (banned : BannedList) (st : SqSt) (r : SqRow)
    (h1 : rowIsBlankSq r = false) (h2 : truthy_ r.testMode = false)
    (h3 : ¬(s_ r.email ≠ "" ∧ isBannedEmail_ (s_ r.email) banned = true))
    (h4 : s_ r.orderId ≠ "") (h5 : s_ r.orderId ∉ st.excludedOrderIds)
    (h6 : s_ r.product ≠ "") (h7 : isBannedProduct_ (s_ r.product) = false)
    (h8 : shouldExcludeSquarespaceOrder_ (sqRowDate r) (s_ r.product) = true) :
    (s_ r.orderId ∈ (processSqRow banned st r).1.excludedOrderIds ∧
     ∀ g, (processSqRow banned st r).1.cur = some g →
       g.meta.orderId ≠ s_ r.orderId) ∧
    (processSqRow banned st r).2 = [] := by
  have h1' : ¬rowIsBlankSq r = true := by simp [h1]
  have h2' : ¬truthy_ r.testMode = true := by simp [h2]
  have h7' : ¬isBannedProduct_ (s_ r.product) = true := by simp [h7]
  cases hE : processSqRow banned st r with
  | mk st' out =>
  unfold processSqRow at hE
  cases hcur : st.cur with
  | none =>
    simp only [hcur] at hE
    rw [if_neg h1', if_neg h2', if_neg h3, if_neg h4, if_neg h5, if_neg h6,
      if_neg h7', if_pos h8] at hE
    injection hE with hA hB
    subst hA
    subst hB
    refine ⟨⟨List.mem_append_right _ (List.mem_singleton_self _), ?_⟩, rfl⟩
    intro g hg
    exact Option.noConfusion hg
  | some g =>
    simp only [hcur] at hE
    rw [if_neg h1', if_neg h2', if_neg h3, if_neg h4, if_neg h5, if_neg h6,
      if_neg h7', if_pos h8] at hE
    by_cases h9 : g.meta.orderId = s_ r.orderId
    · rw [if_pos h9] at hE
      injection hE with hA hB
      subst hA
      subst hB
      refine ⟨⟨List.mem_append_right _ (List.mem_singleton_self _), ?_⟩, rfl⟩
      intro g0 hg0
      exact Option.noConfusion hg0
    · rw [if_neg h9] at hE
      injection hE with hA hB
      subst hA
      subst hB
      refine ⟨⟨List.mem_append_right _ (List.mem_singleton_self _), ?_⟩, rfl⟩
      intro g0 hg0
      cases Option.some_inj.mp hg0
      exact h9

/-- One row preserves the invariant that an excluded order id never owns the
current group. -/
theorem sq_step_J (banned : BannedList) (st : SqSt) (r : SqRow) (X : String)
    (hJ : X ∈ st.excludedOrderIds → ∀ g, st.cur = some g → g.meta.orderId ≠ X) :
    X ∈ (processSqRow banned st r).1.excludedOrderIds →
      ∀ g, (processSqRow banned st r).1.cur = some g → g.meta.orderId ≠ X := by
  intro hmem g' hg'
  rcases processSqRow_spec banned st r with ⟨he, hc, _⟩ | ⟨h4, h5, he, hc, _⟩ |
    ⟨h4, h5, he, hc, _⟩
  · rw [he] at hmem
    rw [hc] at hg'
    exact hJ hmem g' hg'
  · rw [he] at hmem
    rcases hc with hnone | ⟨hsame, hne⟩
    · rw [hnone] at hg'
      exact Option.noConfusion hg'
    · rw [hsame] at hg'
      rcases List.mem_append.mp hmem with hm | hm
      · exact hJ hm g' hg'
      · have hXeq : X = s_ r.orderId := List.mem_singleton.mp hm
        subst hXeq
        exact hne g' hg'
  · rw [he] at hmem
    rcases hc g' hg' with hid | ⟨g0, hg0, hid⟩
    · intro hbad
      apply h5
      rw [hid.symm.trans hbad]
      exact hmem
    · intro hbad
      exact hJ hmem g0 hg0 (hid.symm.trans hbad)

/-- Once an order id is excluded and does not own the group, one more row
keeps it so and emits none of its lines. -/
theorem sq_step_K (banned : BannedList) (st : SqSt) (r : SqRow) (X : String)
    (hK1 : X ∈ st.excludedOrderIds)
    (hK2 : ∀ g, st.cur = some g → g.meta.orderId ≠ X) :
    (X ∈ (processSqRow banned st r).1.excludedOrderIds ∧
     ∀ g, (processSqRow banned st r).1.cur = some g → g.meta.orderId ≠ X) ∧
    ∀ l ∈ (processSqRow banned st r).2, l.orderId ≠ X := by
  rcases processSqRow_spec banned st r with ⟨he, hc, ho⟩ | ⟨h4, h5, he, hc, ho⟩ |
    ⟨h4, h5, he, hc, ho⟩
  · refine ⟨⟨by rw [he]; exact hK1, ?_⟩, ?_⟩
    · intro g hg
      rw [hc] at hg
      exact hK2 g hg
    · intro l hl
      rw [ho] at hl
      exact absurd hl (List.not_mem_nil l)
  · refine ⟨⟨by rw [he]; exact List.mem_append_left _ hK1, ?_⟩, ?_⟩
    · intro g hg
      rcases hc with hnone | ⟨hsame, _⟩
      · rw [hnone] at hg
        exact Option.noConfusion hg
      · rw [hsame] at hg
        exact hK2 g hg
    · intro l hl
      rw [ho] at hl
      exact absurd hl (List.not_mem_nil l)
  · refine ⟨⟨by rw [he]; exact hK1, ?_⟩, ?_⟩
    · intro g hg
      rcases hc g hg with hid | ⟨g0, hg0, hid⟩
      · intro hbad
        apply h5
        rw [hid.symm.trans hbad]
        exact hK1
      · intro hbad
        exact hK2 g0 hg0 (hid.symm.trans hbad)
    · intro l hl
      obtain ⟨g0, hg0, hlid, _⟩ := ho l hl
      intro hbad
      exact hK2 g0 hg0 (hlid.symm.trans hbad)

/-- A row of a different order neither hands the group to order `X` nor
emits an `X` line, provided the group was not `X`'s. -/
theorem sq_step_foreign (banned : BannedList) (st : SqSt) (r : SqRow) (X : String)
    (hx : s_ r.orderId ≠ X)
    (hN : ∀ g, st.cur = some g → g.meta.orderId ≠ X) :
    (∀ g, (processSqRow banned st r).1.cur = some g → g.meta.orderId ≠ X) ∧
    ∀ l ∈ (processSqRow banned st r).2, l.orderId ≠ X := by
  rcases processSqRow_spec banned st r with ⟨_, hc, ho⟩ | ⟨_, _, _, hc, ho⟩ |
    ⟨_, _, _, hc, ho⟩
  · refine ⟨?_, ?_⟩
    · intro g hg
      rw [hc] at hg
      exact hN g hg
    · intro l hl
      rw [ho] at hl
      exact absurd hl (List.not_mem_nil l)
  · refine ⟨?_, ?_⟩
    · intro g hg
      rcases hc with hnone | ⟨hsame, _⟩
      · rw [hnone] at hg
        exact Option.noConfusion hg
      · rw [hsame] at hg
        exact hN g hg
    · intro l hl
      rw [ho] at hl
      exact absurd hl (List.not_mem_nil l)
  · refine ⟨?_, ?_⟩
    · intro g hg
      rcases hc g hg with hid | ⟨g0, hg0, hid⟩
      · intro hbad
        exact hx (hid.symm.trans hbad)
      · intro hbad
        exact hN g0 hg0 (hid.symm.trans hbad)
    · intro l hl
      obtain ⟨g0, hg0, hlid, _⟩ := ho l hl
      intro hbad
      exact hN g0 hg0 (hlid.symm.trans hbad)

/-- A row carrying order id `X` never emits an `X` line itself: anything it
emits is the flush of a previous, different order's group. -/
theorem sq_step_xrow (banned : BannedList) (st : SqSt) (r : SqRow) (X : String)
    (hx : s_ r.orderId = X) :
    ∀ l ∈ (processSqRow banned st r).2, l.orderId ≠ X := by
  rcases processSqRow_spec banned st r with ⟨_, _, ho⟩ | ⟨_, _, _, _, ho⟩ |
    ⟨_, _, _, _, ho⟩
  · intro l hl
    rw [ho] at hl
    exact absurd hl (List.not_mem_nil l)
  · intro l hl
    rw [ho] at hl
    exact absurd hl (List.not_mem_nil l)
  · intro l hl
    obtain ⟨g0, hg0, hlid, hne⟩ := ho l hl
    intro hbad
    exact hne ((hlid.symm.trans hbad).trans hx.symm)

/-- A whole row list preserves the excluded-id/group invariant. -/
theorem sq_rows_J (banned : BannedList) (X : String) (rows : List SqRow) :
    ∀ st : SqSt,
      (X ∈ st.excludedOrderIds → ∀ g, st.cur = some g → g.meta.orderId ≠ X) →
      (X ∈ (processSqRowsAux banned st rows).1.excludedOrderIds →
        ∀ g, (processSqRowsAux banned st rows).1.cur = some g →
          g.meta.orderId ≠ X) := by
  induction rows with
  | nil =>
    intro st hJ
    simpa [processSqRowsAux] using hJ
  | cons r rs ih =>
    intro st hJ
    simp only [processSqRowsAux]
    exact ih (processSqRow banned st r).1 (sq_step_J banned st r X hJ)

/-- Rows of other orders emit no `X` line and never hand the group to `X`. -/
theorem sq_rows_foreign (banned : BannedList) (X : String) (rows : List SqRow) :
    ∀ st : SqSt,
      (∀ r ∈ rows, s_ r.orderId ≠ X) →
      (∀ g, st.cur = some g → g.meta.orderId ≠ X) →
      (∀ g, (processSqRowsAux banned st rows).1.cur = some g →
        g.meta.orderId ≠ X) ∧
      ∀ l ∈ (processSqRowsAux banned st rows).2, l.orderId ≠ X := by
  induction rows with
  | nil =>
    intro st _ hN
    refine ⟨?_, ?_⟩
    · intro g hg
      exact hN g (by simpa [processSqRowsAux] using hg)
    · intro l hl
      simp [processSqRowsAux] at hl
  | cons r rs ih =>
    intro st hrows hN
    have hr := sq_step_foreign banned st r X (hrows r (List.mem_cons_self r rs)) hN
    have hrec := ih (processSqRow banned st r).1
      (fun r' hr' => hrows r' (List.mem_cons_of_mem r hr')) hr.1
    refine ⟨?_, ?_⟩
    · intro g hg
      exact hrec.1 g (by simpa [processSqRowsAux] using hg)
    · intro l hl
      simp only [processSqRowsAux] at hl
      rcases List.mem_append.mp hl with h | h
      · exact hr.2 l h
      · exact hrec.2 l h

/-- Once an order id is excluded and does not own the group, an arbitrary
row list keeps it so and emits none of its lines. -/
theorem sq_rows_K (banned : BannedList) (X : String) (rows : List SqRow) :
    ∀ st : SqSt,
      X ∈ st.excludedOrderIds →
      (∀ g, st.cur = some g → g.meta.orderId ≠ X) →
      (X ∈ (processSqRowsAux banned st rows).1.excludedOrderIds ∧
       ∀ g, (processSqRowsAux banned st rows).1.cur = some g →
         g.meta.orderId ≠ X) ∧
      ∀ l ∈ (processSqRowsAux banned st rows).2, l.orderId ≠ X := by
  induction rows with
  | nil =>
    intro st hK1 hK2
    refine ⟨⟨by simpa [processSqRowsAux] using hK1, ?_⟩, ?_⟩
    · intro g hg
      exact hK2 g (by simpa [processSqRowsAux] using hg)
    · intro l hl
      simp [processSqRowsAux] at hl
  | cons r rs ih =>
    intro st hK1 hK2
    have hr := sq_step_K banned st r X hK1 hK2
    have hrec := ih (processSqRow banned st r).1 hr.1.1 hr.1.2
    refine ⟨⟨by simpa [processSqRowsAux] using hrec.1.1, ?_⟩, ?_⟩
    · intro g hg
      exact hrec.1.2 g (by simpa [processSqRowsAux] using hg)
    · intro l hl
      simp only [processSqRowsAux] at hl
      rcases List.mem_append.mp hl with h | h
      · exact hr.2 l h
      · exact hrec.2 l h

/-- Rows all carrying order id `X` emit no `X` line. -/
theorem sq_rows_xout (banned : BannedList) (X : String) (rows : List SqRow) :
    ∀ st : SqSt, (∀ r ∈ rows, s_ r.orderId = X) →
      ∀ l ∈ (processSqRowsAux banned st rows).2, l.orderId ≠ X := by
  induction rows with
  | nil =>
    intro st _ l hl
    simp [processSqRowsAux] at hl
  | cons r rs ih =>
    intro st hrows l hl
    simp only [processSqRowsAux] at hl
    rcases List.mem_append.mp hl with h | h
    · exact sq_step_xrow banned st r X (hrows r (List.mem_cons_self r rs)) l h
    · exact ih (processSqRow banned st r).1
        (fun r' hr' => hrows r' (List.mem_cons_of_mem r hr')) l h

/-- A triggering row of order `X` locks `X` out, whether or not `X` was
already excluded, provided the excluded-id/group invariant held. -/
theorem sq_step_lock (banned : BannedList) (st : SqSt) (t : SqRow) (X : String)
    (hJ : X ∈ st.excludedOrderIds → ∀ g, st.cur = some g → g.meta.orderId ≠ X)
    (hx : s_ t.orderId = X)
    (h1 : rowIsBlankSq t = false) (h2 : truthy_ t.testMode = false)
    (h3 : ¬(s_ t.email ≠ "" ∧ isBannedEmail_ (s_ t.email) banned = true))
    (h4 : X ≠ "")
    (h6 : s_ t.product ≠ "") (h7 : isBannedProduct_ (s_ t.product) = false)
    (h8 : shouldExcludeSquarespaceOrder_ (sqRowDate t) (s_ t.product) = true) :
    (X ∈ (processSqRow banned st t).1.excludedOrderIds ∧
     ∀ g, (processSqRow banned st t).1.cur = some g → g.meta.orderId ≠ X) ∧
    ∀ l ∈ (processSqRow banned st t).2, l.orderId ≠ X := by
  by_cases hmem : X ∈ st.excludedOrderIds
  · exact sq_step_K banned st t X hmem (hJ hmem)
  · have htr := processSqRow_trigger banned st t h1 h2 h3 (by rw [hx]; exact h4)
      (by rw [hx]; exact hmem) h6 h7 h8
    refine ⟨⟨?_, ?_⟩, ?_⟩
    · have h := htr.1.1
      rwa [hx] at h
    · intro g hg
      have h := htr.1.2 g hg
      rwa [hx] at h
    · intro l hl
      rw [htr.2] at hl
      exact absurd hl (List.not_mem_nil l)

/-- C5 (amended): in the Squarespace phase, when each order's raw lines are
contiguous within one uninterrupted invocation and some line of the order
reaches the duplicate-prevention check and triggers it (2026 date with a
montana/mt + llc + renew product), no canonical line of that order is
written: the buffered group is dropped and every other line of the order is
either buffered into the dropped group or skipped via the remembered order
id.  (As claimed it is false for interleaved orders: see the
counterexample.) -/
theorem sq_renewal_exclusion_contiguous (banned : BannedList)
    (blocks : List (List SqRow)) (oid : List SqRow → String)
    (hoid : ∀ b ∈ blocks, ∀ r ∈ b, s_ r.orderId = oid b)
    (hdist : (blocks.map oid).Pairwise (fun a c => a ≠ c))
    (b : List SqRow) (hb : b ∈ blocks) (t : SqRow) (ht : t ∈ b)
    (h1 : rowIsBlankSq t = false) (h2 : truthy_ t.testMode = false)
    (h3 : ¬(s_ t.email ≠ "" ∧ isBannedEmail_ (s_ t.email) banned = true))
    (h4 : oid b ≠ "")
    (h6 : s_ t.product ≠ "") (h7 : isBannedProduct_ (s_ t.product) = false)
    (h8 : shouldExcludeSquarespaceOrder_ (sqRowDate t) (s_ t.product) = true) :
    (processSquarespaceRows banned blocks.flatten).2.filter
      (fun l => decide (l.orderId = oid b)) = [] := by
  obtain ⟨P, S, hPS⟩ := List.append_of_mem hb
  obtain ⟨xpre, xpost, hbeq⟩ := List.append_of_mem ht
  have hXrow : s_ t.orderId = oid b := hoid b hb t ht
  have hxpre : ∀ r ∈ xpre, s_ r.orderId = oid b := fun r hr =>
    hoid b hb r (by rw [hbeq]; exact List.mem_append_left _ hr)
  have hcross : ∀ pb ∈ P, oid pb ≠ oid b := by
    intro pb hpb
    have hd := hdist
    rw [hPS, List.map_append] at hd
    exact (List.pairwise_append.mp hd).2.2 (oid pb)
      (List.mem_map.mpr ⟨pb, hpb, rfl⟩) (oid b) (by simp)
  have hP : ∀ r ∈ P.flatten, s_ r.orderId ≠ oid b := by
    intro r hr
    obtain ⟨pb, hpb, hrpb⟩ := List.mem_flatten.mp hr
    rw [hoid pb (by rw [hPS]; exact List.mem_append_left _ hpb) r hrpb]
    exact hcross pb hpb
  have hrows : blocks.flatten = P.flatten ++ (xpre ++ (t :: (xpost ++ S.flatten))) := by
    rw [hPS, hbeq]
    simp [List.flatten_append, List.append_assoc]
  have h0N : ∀ g, initSqSt.cur = some g → g.meta.orderId ≠ oid b := by
    intro g hg
    simp [initSqSt] at hg
  have h0J : oid b ∈ initSqSt.excludedOrderIds →
      ∀ g, initSqSt.cur = some g → g.meta.orderId ≠ oid b := by
    intro hmem
    simp [initSqSt] at hmem
  have hA := sq_rows_foreign banned (oid b) P.flatten initSqSt hP h0N
  have hJ1 := sq_rows_J banned (oid b) P.flatten initSqSt h0J
  have hB := sq_rows_xout banned (oid b) xpre
    (processSqRowsAux banned initSqSt P.flatten).1 hxpre
  have hJ2 := sq_rows_J banned (oid b) xpre
    (processSqRowsAux banned initSqSt P.flatten).1 hJ1
  have hK3 := sq_step_lock banned
    (processSqRowsAux banned (processSqRowsAux banned initSqSt P.flatten).1 xpre).1
    t (oid b) hJ2 hXrow h1 h2 h3 h4 h6 h7 h8
  have hC := sq_rows_K banned (oid b) (xpost ++ S.flatten)
    (processSqRow banned
      (processSqRowsAux banned (processSqRowsAux banned initSqSt P.flatten).1 xpre).1
      t).1
    hK3.1.1 hK3.1.2
  have hstate : (processSqRowsAux banned initSqSt blocks.flatten).1 =
      (processSqRowsAux banned
        (processSqRow banned
          (processSqRowsAux banned
            (processSqRowsAux banned initSqSt P.flatten).1 xpre).1 t).1
        (xpost ++ S.flatten)).1 := by
    rw [hrows, processSqRowsAux_append, processSqRowsAux_append]
    simp [processSqRowsAux]
  have hout : ∀ l ∈ (processSquarespaceRows banned blocks.flatten).2,
      l.orderId ≠ oid b := by
    intro l hl
    simp only [processSquarespaceRows] at hl
    rcases List.mem_append.mp hl with hmain | hflush
    · rw [hrows, processSqRowsAux_append, processSqRowsAux_append] at hmain
      rcases List.mem_append.mp hmain with hA' | hmain2
      · exact hA.2 l hA'
      rcases List.mem_append.mp hmain2 with hB' | hmain3
      · exact hB l hB'
      simp only [processSqRowsAux] at hmain3
      rcases List.mem_append.mp hmain3 with ht' | hC'
      · exact hK3.2 l ht'
      · exact hC.2 l hC'
    · rw [hstate] at hflush
      obtain ⟨g0, hg0, hlid⟩ := flush_out_lines _ l hflush
      intro hbad
      exact hC.1.2 g0 hg0 (hlid.symm.trans hbad)
  rw [List.filter_eq_nil_iff]
  intro l hl
  simpa using hout l hl

/-- C5 counterexample (the claim as written): with the two lines of order A
interleaved around a line of order B, the Montana-LLC-renewal trigger on the
second A row comes too late — the first A line was already flushed when B
arrived, so a canonical "Widget" line of the excluded order A survives in
the output even though the trigger condition genuinely fires. -/
theorem sq_renewal_interleaved_counterexample :
    ((processSquarespaceRows emptyBanned [sqRowA1, sqRowB1, sqRowA2]).2.filter
        (fun l => decide (l.orderId = "A"))).map (fun l => l.productName) =
      ["Widget"] ∧
    shouldExcludeSquarespaceOrder_ (sqRowDate sqRowA2) (s_ sqRowA2.product) = true :=
  ⟨by decide, by decide⟩

/-- Witness for C5: one contiguous order A whose second line is the 2026
Montana LLC renewal — no canonical A line is written. -/
theorem sq_renewal_exclusion_witness :
    (processSquarespaceRows emptyBanned
        ([[sqRowA1, sqRowA2]] : List (List SqRow)).flatten).2.filter
      (fun l => decide (l.orderId =
        (fun _ : List SqRow => "A") [sqRowA1, sqRowA2])) = [] :=
  sq_renewal_exclusion_contiguous emptyBanned [[sqRowA1, sqRowA2]]
    (fun _ => "A") (by decide) (by decide) [sqRowA1, sqRowA2] (by decide)
    sqRowA2 (by decide) (by decide) (by decide) (by decide) (by decide)
    (by decide) (by decide) (by decide)

/-- Witness for C6: `user+promo@GMAIL.com` is banned when the exact set was
loaded from the entry `user@gmail.com`. -/
theorem banned_email_normalized_membership_witness :
    (normalizeEmailForCompare_ "user+promo@GMAIL.com" =
       normalizeEmailForCompare_ "user@gmail.com" ∧
     normalizeEmailForCompare_ "user@gmail.com" ∈
       (loadBannedFromCells ["user@gmail.com"]).exact ∧
     normalizeEmailForCompare_ "user+promo@GMAIL.com" ≠ "") ∧
    isBannedEmail_ "user+promo@GMAIL.com" (loadBannedFromCells ["user@gmail.com"]) = true :=
  ⟨⟨by decide, by decide, by decide⟩,
   banned_email_normalized_membership "user+promo@GMAIL.com" "user@gmail.com"
     (loadBannedFromCells ["user@gmail.com"]) (by decide) (by decide) (by decide)⟩

end CleanMaster
